import Mathlib

set_option maxHeartbeats 1000000

/-! Shallow embedding of the BhavOrg/api voting, feed, and comment core
(src/models/post.model.ts, the comment model, src/controllers/post.controller.ts,
src/controllers/comment.controller.ts).  SQL tables become lists of rows,
`UPDATE ... WHERE` becomes a guarded map, `DELETE ... WHERE` a filter, and
`INSERT` an append.  SQL integer columns are modelled as `Int` so that counter
underflow is observable. -/

/-- A row of the `posts` table, as the code reads it joined with `users`
(`SELECT p.*, u.username as author_username`).  `tags` carries the tag names
associated through `post_tags`/`tags` (the model hydrates them with a separate
batched query); the `tags` table lowercases names on insert. -/
structure PostRow where
  post_id : String
  author_id : String
  author_username : Option String
  content : String
  upvotes : Int
  downvotes : Int
  comment_count : Int
  is_anonymous : Bool
  expert_responded : Bool
  urgency_level : String
  status : String
  created_at : Nat
  updated_at : Nat
  tags : List String
  deriving Repr, DecidableEq

/-- A row of the `comments` table, joined with `users` for `author_username`. -/
structure CommentRow where
  comment_id : String
  post_id : String
  author_id : String
  author_username : Option String
  parent_comment_id : Option String
  content : String
  is_anonymous : Bool
  is_expert_response : Bool
  upvotes : Int
  downvotes : Int
  status : String
  created_at : Nat
  updated_at : Nat
  deriving Repr, DecidableEq

/-- A row of the `post_votes` table (composite key `(post_id, user_id)`). -/
structure PostVote where
  post_id : String
  user_id : String
  vote_type : String
  deriving Repr, DecidableEq

/-- A row of the `comment_votes` table (composite key `(comment_id, user_id)`). -/
structure CommentVote where
  comment_id : String
  user_id : String
  vote_type : String
  deriving Repr, DecidableEq

/-- A row of the `notifications` table, restricted to the columns the vote and
comment flows insert.  `priority` is `none` when the INSERT leaves it to the
database default. -/
structure NotificationRow where
  recipient_id : String
  notification_type : String
  message : String
  related_post_id : Option String
  related_comment_id : Option String
  priority : Option String
  deriving Repr, DecidableEq

/-- The persistent storage visible to the modelled code paths. -/
structure Store where
  posts : List PostRow
  comments : List CommentRow
  post_votes : List PostVote
  comment_votes : List CommentVote
  notifications : List NotificationRow
  deriving Repr, DecidableEq

/-- ASCII uppercase of a string (`.toUpperCase()`), defined by structural
recursion over the character list so that it evaluates by kernel
reduction. -/
def strToUpper (s : String) : String := String.mk (s.data.map Char.toUpper)

/-- JavaScript truthiness of a nullable string (`undefined`/`null` and the
empty string are falsy). -/
def truthy (o : Option String) : Bool :=
  match o with
  | some v => v != ""
  | none => false

namespace PostModel

/-- `SELECT vote_type FROM post_votes WHERE post_id = $1 AND user_id = $2`
followed by `rows[0]?.vote_type`: the existing-vote lookup at the head of
`voteOnPost`. -/
def findVote (postId userId : String) (votes : List PostVote) : Option String :=
  ((votes.filter fun v => v.post_id == postId && v.user_id == userId).head?).map
    fun v => v.vote_type

/-- `UPDATE posts SET ... WHERE post_id = $1`: applies `f` to every row whose
`post_id` matches. -/
def updatePostsWhere (postId : String) (f : PostRow → PostRow)
    (posts : List PostRow) : List PostRow :=
  posts.map fun p => if p.post_id == postId then f p else p

/-- The three-way branch of `voteOnPost` (post.model.ts): toggle-off deletes
the vote row and decrements the matching counter, switch rewrites `vote_type`
and moves one count between the counters, and the no-existing-vote case
inserts the row and increments the matching counter. -/
def postVoteBranch (postId userId voteType : String) (s : Store) : Store :=
  match findVote postId userId s.post_votes with
  | some ev =>
    if ev == voteType then
      let votes := s.post_votes.filter fun v =>
        !(v.post_id == postId && v.user_id == userId)
      if voteType == "up" then
        { s with post_votes := votes,
                 posts := updatePostsWhere postId
                   (fun p => { p with upvotes := p.upvotes - 1 }) s.posts }
      else
        { s with post_votes := votes,
                 posts := updatePostsWhere postId
                   (fun p => { p with downvotes := p.downvotes - 1 }) s.posts }
    else
      let votes := s.post_votes.map fun v =>
        if v.post_id == postId && v.user_id == userId then
          { v with vote_type := voteType }
        else v
      if voteType == "up" then
        { s with post_votes := votes,
                 posts := updatePostsWhere postId
                   (fun p => { p with upvotes := p.upvotes + 1,
                                      downvotes := p.downvotes - 1 }) s.posts }
      else
        { s with post_votes := votes,
                 posts := updatePostsWhere postId
                   (fun p => { p with upvotes := p.upvotes - 1,
                                      downvotes := p.downvotes + 1 }) s.posts }
  | none =>
    let votes := s.post_votes ++ [⟨postId, userId, voteType⟩]
    if voteType == "up" then
      { s with post_votes := votes,
               posts := updatePostsWhere postId
                 (fun p => { p with upvotes := p.upvotes + 1 }) s.posts }
    else
      { s with post_votes := votes,
               posts := updatePostsWhere postId
                 (fun p => { p with downvotes := p.downvotes + 1 }) s.posts }

/-- `SELECT author_id FROM posts WHERE post_id = $1` with `rows[0]?.author_id`. -/
def postAuthorId (postId : String) (posts : List PostRow) : Option String :=
  ((posts.filter fun p => p.post_id == postId).head?).map fun p => p.author_id

/-- The guard `authorId && authorId !== userId && !existingVote &&
voteType === "up"` in front of the upvote-notification INSERT, with JavaScript
truthiness on the two nullable strings. -/
def upvoteNotificationCondition (userId voteType : String)
    (existingVote authorId : Option String) : Bool :=
  match authorId with
  | some a => a != "" && a != userId && !(truthy existingVote) && voteType == "up"
  | none => false

/-- Whether this `voteOnPost` call reaches the notification INSERT. -/
def voteNotifies (postId userId voteType : String) (s : Store) : Bool :=
  upvoteNotificationCondition userId voteType
    (findVote postId userId s.post_votes)
    (postAuthorId postId (postVoteBranch postId userId voteType s).posts)

/-- The success path of `voteOnPost` (post.model.ts, lines 334-444): the vote
branch, then the conditional upvote-notification INSERT, then COMMIT.  The
in-transaction failure of the notification INSERT is modelled by
`voteOnPostTx`. -/
def voteOnPost (postId userId voteType : String) (s : Store) : Store :=
  let s1 := postVoteBranch postId userId voteType s
  if voteNotifies postId userId voteType s then
    { s1 with notifications := s1.notifications ++
        [⟨(postAuthorId postId s1.posts).getD "", "upvote",
          "Someone upvoted your post", some postId, none, none⟩] }
  else s1

/-- The whole `voteOnPost` transaction with a failure oracle for the
notification INSERT.  If the INSERT is reached and fails, the `catch` block
issues ROLLBACK, so the caller observes the pre-transaction store: the result
is `none` and no mutation survives. -/
def voteOnPostTx (notifyFails : Bool) (postId userId voteType : String)
    (s : Store) : Option Store :=
  if voteNotifies postId userId voteType s && notifyFails then none
  else some (voteOnPost postId userId voteType s)

end PostModel

/-- The store a caller observes after a transaction: the new store on COMMIT,
the untouched input store after ROLLBACK. -/
def committed (r : Option Store) (s : Store) : Store := r.getD s

namespace CommentModel

/-- `SELECT vote_type FROM comment_votes WHERE comment_id = $1 AND
user_id = $2` followed by `rows[0]?.vote_type`. -/
def findVote (commentId userId : String) (votes : List CommentVote) : Option String :=
  ((votes.filter fun v => v.comment_id == commentId && v.user_id == userId).head?).map
    fun v => v.vote_type

/-- `UPDATE comments SET ... WHERE comment_id = $1`. -/
def updateCommentsWhere (commentId : String) (f : CommentRow → CommentRow)
    (comments : List CommentRow) : List CommentRow :=
  comments.map fun c => if c.comment_id == commentId then f c else c

/-- The three-way branch of `voteOnComment` (comment model): identical
toggle-off / switch / insert logic against `comment_votes` and the
`comments` counters. -/
def commentVoteBranch (commentId userId voteType : String) (s : Store) : Store :=
  match findVote commentId userId s.comment_votes with
  | some ev =>
    if ev == voteType then
      let votes := s.comment_votes.filter fun v =>
        !(v.comment_id == commentId && v.user_id == userId)
      if voteType == "up" then
        { s with comment_votes := votes,
                 comments := updateCommentsWhere commentId
                   (fun c => { c with upvotes := c.upvotes - 1 }) s.comments }
      else
        { s with comment_votes := votes,
                 comments := updateCommentsWhere commentId
                   (fun c => { c with downvotes := c.downvotes - 1 }) s.comments }
    else
      let votes := s.comment_votes.map fun v =>
        if v.comment_id == commentId && v.user_id == userId then
          { v with vote_type := voteType }
        else v
      if voteType == "up" then
        { s with comment_votes := votes,
                 comments := updateCommentsWhere commentId
                   (fun c => { c with upvotes := c.upvotes + 1,
                                      downvotes := c.downvotes - 1 }) s.comments }
      else
        { s with comment_votes := votes,
                 comments := updateCommentsWhere commentId
                   (fun c => { c with upvotes := c.upvotes - 1,
                                      downvotes := c.downvotes + 1 }) s.comments }
  | none =>
    let votes := s.comment_votes ++ [⟨commentId, userId, voteType⟩]
    if voteType == "up" then
      { s with comment_votes := votes,
               comments := updateCommentsWhere commentId
                 (fun c => { c with upvotes := c.upvotes + 1 }) s.comments }
    else
      { s with comment_votes := votes,
               comments := updateCommentsWhere commentId
                 (fun c => { c with downvotes := c.downvotes + 1 }) s.comments }

/-- `SELECT author_id FROM comments WHERE comment_id = $1` with
`rows[0]?.author_id`. -/
def commentAuthorId (commentId : String) (comments : List CommentRow) : Option String :=
  ((comments.filter fun c => c.comment_id == commentId).head?).map fun c => c.author_id

/-- Whether this `voteOnComment` call reaches the notification INSERT
(`authorId && authorId !== userId && !existingVote && voteType === "up"`). -/
def voteNotifies (commentId userId voteType : String) (s : Store) : Bool :=
  PostModel.upvoteNotificationCondition userId voteType
    (findVote commentId userId s.comment_votes)
    (commentAuthorId commentId (commentVoteBranch commentId userId voteType s).comments)

/-- The success path of `voteOnComment` (comment model, lines 484-594). -/
def voteOnComment (commentId userId voteType : String) (s : Store) : Store :=
  let s1 := commentVoteBranch commentId userId voteType s
  if voteNotifies commentId userId voteType s then
    { s1 with notifications := s1.notifications ++
        [⟨(commentAuthorId commentId s1.comments).getD "", "upvote",
          "Someone upvoted your comment", none, some commentId, none⟩] }
  else s1

/-- The whole `voteOnComment` transaction with a failure oracle for the
notification INSERT; `none` models the ROLLBACK taken by the `catch` block. -/
def voteOnCommentTx (notifyFails : Bool) (commentId userId voteType : String)
    (s : Store) : Option Store :=
  if voteNotifies commentId userId voteType s && notifyFails then none
  else some (voteOnComment commentId userId voteType s)

/-- The argument record of `createComment` (comment model). -/
structure CommentCreationData where
  postId : String
  authorId : String
  content : String
  parentCommentId : Option String
  isAnonymous : Bool
  isExpertResponse : Bool
  deriving Repr, DecidableEq

/-- `createComment` (comment model, lines 209-335): inserts the comment row
(status defaults to active, counters to 0), increments `comment_count` on the
post, marks `expert_responded` when the comment is an expert response, and
emits the post-author and parent-author notifications.  `newCommentId` stands
for the database-generated primary key and `now` for the insertion
timestamp. -/
def createComment (newCommentId : String) (now : Nat)
    (d : CommentCreationData) (s : Store) : Store :=
  let parentId : Option String :=
    match d.parentCommentId with
    | some pc => if pc == "" then none else some pc
    | none => none
  let comment : CommentRow :=
    { comment_id := newCommentId, post_id := d.postId, author_id := d.authorId,
      author_username := none, parent_comment_id := parentId,
      content := d.content, is_anonymous := d.isAnonymous,
      is_expert_response := d.isExpertResponse, upvotes := 0, downvotes := 0,
      status := "active", created_at := now, updated_at := now }
  let comments1 := s.comments ++ [comment]
  let posts1 := PostModel.updatePostsWhere d.postId
    (fun p => { p with comment_count := p.comment_count + 1 }) s.posts
  let posts2 :=
    if d.isExpertResponse then
      PostModel.updatePostsWhere d.postId
        (fun p => { p with expert_responded := true }) posts1
    else posts1
  let postAuthor := PostModel.postAuthorId d.postId posts2
  let notifs1 :=
    match postAuthor with
    | some a =>
      if a != "" && a != d.authorId then
        [(⟨a, if d.isExpertResponse then "expertResponse" else "comment",
           if d.isExpertResponse then "An expert has responded to your post"
           else "Someone commented on your post",
           some d.postId, some newCommentId,
           some (if d.isExpertResponse then "high" else "medium")⟩ : NotificationRow)]
      else []
    | none => []
  let notifs2 :=
    match parentId with
    | some pc =>
      match commentAuthorId pc comments1 with
      | some pa =>
        if pa != "" && pa != d.authorId then
          [(⟨pa, if d.isExpertResponse then "expertResponse" else "comment",
             if d.isExpertResponse then "An expert has replied to your comment"
             else "Someone replied to your comment",
             some d.postId, some newCommentId,
             some (if d.isExpertResponse then "high" else "medium")⟩ : NotificationRow)]
        else []
      | none => []
    | none => []
  { s with comments := comments1, posts := posts2,
           notifications := s.notifications ++ notifs1 ++ notifs2 }

/-- `updateComment` (comment model, lines 359-397): a dynamic SET clause that
assigns only the present fields; `updated_at := NOW()` is not tracked by the
model (no claim mentions it). -/
def updateComment (commentId : String) (content status : Option String)
    (s : Store) : Store :=
  { s with comments := s.comments.map fun c =>
      if c.comment_id == commentId then
        { c with content := content.getD c.content,
                 status := status.getD c.status }
      else c }

/-- `deleteComment` (comment model, lines 402-444): errors when no row has the
id; otherwise marks the comment deleted and decrements `comment_count` on the
post the first matching row references. -/
def deleteComment (commentId : String) (s : Store) : Option Store :=
  match (s.comments.filter fun c => c.comment_id == commentId).head? with
  | none => none
  | some c0 =>
    some { s with
      comments := updateCommentsWhere commentId
        (fun c => { c with status := "deleted" }) s.comments,
      posts := PostModel.updatePostsWhere c0.post_id
        (fun p => { p with comment_count := p.comment_count - 1 }) s.posts }

/-- The number of active comments referencing a post. -/
def activeCommentCount (s : Store) (postId : String) : Nat :=
  (s.comments.filter fun c => c.post_id == postId && c.status == "active").length

/-- The spec invariant for comment counting: each post's `comment_count`
equals its number of active comments. -/
def commentCountConsistent (s : Store) : Prop :=
  ∀ p ∈ s.posts, p.comment_count = (activeCommentCount s p.post_id : Int)

instance (s : Store) : Decidable (commentCountConsistent s) := by
  unfold commentCountConsistent; infer_instance

end CommentModel

namespace PostModel

/-- The optional-field record `FeedQuery` (post.types): an absent field is
`none`, mirroring an absent/`undefined` property. -/
structure FeedQuery where
  tags : Option (List String) := none
  urgencyLevel : Option String := none
  withExpertResponse : Option Bool := none
  sortBy : Option String := none
  sortOrder : Option String := none
  page : Option Int := none
  limit : Option Int := none
  deriving Repr, DecidableEq

/-- The sort-field allow-list of `getFeedPosts`. -/
def allowedSortFields : List String := ["created_at", "upvotes", "comment_count"]

/-- `allowedSortFields.includes(sortBy) ? sortBy : "created_at"`. -/
def resolveSortBy (sortBy : String) : String :=
  if allowedSortFields.contains sortBy then sortBy else "created_at"

/-- `sortOrder.toUpperCase() === "ASC" ? "ASC" : "DESC"`. -/
def resolveSortOrder (sortOrder : String) : String :=
  if strToUpper sortOrder == "ASC" then "ASC" else "DESC"

/-- The column the resolved sort field reads from a row (resolution guarantees
`field` is one of the three allow-listed columns; anything else would never be
interpolated into the ORDER BY). -/
def sortKey (field : String) (p : PostRow) : Int :=
  if field == "upvotes" then p.upvotes
  else if field == "comment_count" then p.comment_count
  else (p.created_at : Int)

/-- `ORDER BY p.<field> <ord>` as a Boolean comparison between rows. -/
def feedLe (field ord : String) (a b : PostRow) : Bool :=
  if ord == "ASC" then decide (sortKey field a ≤ sortKey field b)
  else decide (sortKey field b ≤ sortKey field a)

/-- Insertion step of the ORDER BY model. -/
def orderedInsert (le : PostRow → PostRow → Bool) (a : PostRow) :
    List PostRow → List PostRow
  | [] => [a]
  | b :: l => if le a b then a :: b :: l else b :: orderedInsert le a l

/-- The ORDER BY clause modelled as an insertion sort with the given
comparison. -/
def sortPosts (le : PostRow → PostRow → Bool) : List PostRow → List PostRow
  | [] => []
  | a :: l => orderedInsert le a (sortPosts le l)

/-- The WHERE clause of `getFeedPosts` as a row predicate.  `p.status =
'active'` is always present; the tag EXISTS-subquery and the urgency filter
are appended only when their input is present (and truthy, per JavaScript);
the `expert_responded` condition is appended whenever the destructured
`withExpertResponse` is not undefined — and since the destructuring pattern
`withExpertResponse = false` substitutes `false` for an absent field, that
test always succeeds and the condition is always appended. -/
def feedMatches (q : FeedQuery) (p : PostRow) : Bool :=
  (p.status == "active")
  && (match q.tags with
      | some ts =>
        if ts.length > 0 then ts.any fun t => p.tags.contains t.toLower
        else true
      | none => true)
  && (match q.urgencyLevel with
      | some u => if u != "" then p.urgency_level == u else true
      | none => true)
  && (p.expert_responded == q.withExpertResponse.getD false)

/-- `getFeedPosts` (post.model.ts, lines 212-329): destructures the query with
its defaults, builds the WHERE clause, computes the total count, then the
ordered page (`LIMIT $n OFFSET $n+1`).  Tag hydration is represented by the
`tags` field already carried on each row. -/
def getFeedPosts (q : FeedQuery) (s : Store) : List PostRow × Int :=
  let sortBy := q.sortBy.getD "created_at"
  let sortOrder := q.sortOrder.getD "desc"
  let page := q.page.getD 1
  let lim := q.limit.getD 10
  let actualSortBy := resolveSortBy sortBy
  let actualSortOrder := resolveSortOrder sortOrder
  let offset := (page - 1) * lim
  let matching := s.posts.filter (feedMatches q)
  let total : Int := matching.length
  let pageRows :=
    ((sortPosts (feedLe actualSortBy actualSortOrder) matching).drop offset.toNat).take
      lim.toNat
  (pageRows, total)

end PostModel

namespace PostController

/-- `if (post.is_anonymous) post.author_username = null` applied to each feed
post (post.controller.ts getFeed, lines 252-258). -/
def getFeedProcessPost (p : PostRow) : PostRow :=
  if p.is_anonymous then { p with author_username := none } else p

/-- The same anonymization in `getPost` (post.controller.ts, lines 77-80). -/
def getPostHideAnonymous (p : PostRow) : PostRow :=
  if p.is_anonymous then { p with author_username := none } else p

end PostController

namespace CommentController

/-- The anonymization step of `getPostComments`
(comment.controller.ts, lines 267-273). -/
def getPostCommentsProcessComment (c : CommentRow) : CommentRow :=
  if c.is_anonymous then { c with author_username := none } else c

/-- The anonymization step of the `voteOnComment` controller
(comment.controller.ts, lines 338-341). -/
def voteOnCommentHideAnonymous (c : CommentRow) : CommentRow :=
  if c.is_anonymous then { c with author_username := none } else c

/-- The per-node output record built by `processCommentThreads`
(comment.controller.ts, lines 205-219), minus the mutable `replies` array,
which the thread graph tracks separately.  `user_vote` is modelled as the
not-attached case (`|| null`). -/
structure CommentResponse where
  comment_id : String
  post_id : String
  author_username : Option String
  parent_comment_id : Option String
  content : String
  upvotes : Int
  downvotes : Int
  is_expert_response : Bool
  is_anonymous : Bool
  created_at : Nat
  updated_at : Nat
  user_vote : Option String
  deriving Repr, DecidableEq

/-- The first-pass conversion of a comment to its response node
(`author_username: comment.author_username || null`). -/
def toCommentResponse (c : CommentRow) : CommentResponse :=
  { comment_id := c.comment_id, post_id := c.post_id,
    author_username :=
      match c.author_username with
      | some u => if u == "" then none else some u
      | none => none,
    parent_comment_id := c.parent_comment_id, content := c.content,
    upvotes := c.upvotes, downvotes := c.downvotes,
    is_expert_response := c.is_expert_response, is_anonymous := c.is_anonymous,
    created_at := c.created_at, updated_at := c.updated_at, user_vote := none }

/-- The object graph `processCommentThreads` leaves behind: `nodeOf` is the
`commentMap` index, `rootIds` the `rootComments` array and `repliesOf` each
node's `replies` array, both by node id in push order (the arrays hold
references into the map, so membership by id is faithful to the mutated
structure). -/
structure ThreadGraph where
  nodeOf : String → Option CommentResponse
  rootIds : List String
  repliesOf : String → List String

/-- First pass: `commentMap[comment.comment_id] = commentResponse` over the
whole list (a later duplicate id overwrites an earlier one, as assignment
does). -/
def commentMapOf (cs : List CommentRow) : String → Option CommentResponse :=
  cs.foldl
    (fun m c => fun id =>
      if id == c.comment_id then some (toCommentResponse c) else m id)
    (fun _ => none)

/-- Second pass step: `comment.parent_comment_id &&
commentMap[comment.parent_comment_id]` (JavaScript truthiness: a null or empty
parent id is falsy) decides between pushing onto the parent's `replies` and
pushing onto `rootComments`. -/
def threadStep (ids : List String) (acc : List String × (String → List String))
    (c : CommentRow) : List String × (String → List String) :=
  match c.parent_comment_id with
  | some p =>
    if p != "" && ids.contains p then
      (acc.1, fun id => if id == p then acc.2 id ++ [c.comment_id] else acc.2 id)
    else
      (acc.1 ++ [c.comment_id], acc.2)
  | none => (acc.1 ++ [c.comment_id], acc.2)

/-- `processCommentThreads` (comment.controller.ts, lines 199-238). -/
def processCommentThreads (cs : List CommentRow) : ThreadGraph :=
  let ids := cs.map fun c => c.comment_id
  let r := cs.foldl (threadStep ids) ([], fun _ => [])
  { nodeOf := commentMapOf cs, rootIds := r.1, repliesOf := r.2 }

end CommentController

namespace PostController

/-- The `voteType !== "up" && voteType !== "down"` guard of the `voteOnPost`
controller (post.controller.ts, lines 304-316): an invalid vote type raises a
400 ApiError before the model — and hence storage — is touched.  The Bool
reports whether the request was accepted. -/
def voteOnPost (postId userId voteType : String) (s : Store) : Store × Bool :=
  if voteType != "up" && voteType != "down" then (s, false)
  else (PostModel.voteOnPost postId userId voteType s, true)

end PostController

namespace CommentController

/-- The same guard in the `voteOnComment` controller
(comment.controller.ts, lines 324-336). -/
def voteOnComment (commentId userId voteType : String) (s : Store) : Store × Bool :=
  if voteType != "up" && voteType != "down" then (s, false)
  else (CommentModel.voteOnComment commentId userId voteType s, true)

end CommentController

/-- A one-post, one-comment store used to instantiate the universally
quantified claim theorems at a concrete input. -/
def samplePost : PostRow :=
  { post_id := "p1", author_id := "alice", author_username := some "alice",
    content := "hello", upvotes := 0, downvotes := 0, comment_count := 1,
    is_anonymous := false, expert_responded := false, urgency_level := "low",
    status := "active", created_at := 5, updated_at := 5, tags := ["anxiety"] }

/-- A comment on `samplePost`. -/
def sampleComment : CommentRow :=
  { comment_id := "c1", post_id := "p1", author_id := "alice",
    author_username := some "alice", parent_comment_id := none,
    content := "hi", is_anonymous := false, is_expert_response := false,
    upvotes := 0, downvotes := 0, status := "active",
    created_at := 6, updated_at := 6 }

/-- The store holding `samplePost` and `sampleComment` with no votes. -/
def sampleStore : Store :=
  { posts := [samplePost], comments := [sampleComment], post_votes := [],
    comment_votes := [], notifications := [] }

/-- The store for C5: one active post that has received an expert response. -/
def expertPost : PostRow := { samplePost with expert_responded := true }

/-- One active expert-responded post, nothing else. -/
def expertStore : Store :=
  { posts := [expertPost], comments := [], post_votes := [],
    comment_votes := [], notifications := [] }

/-- The store for C6: one active post with no comments yet. -/
def c6Post : PostRow := { samplePost with comment_count := 0 }

/-- The C6 initial store. -/
def c6Store : Store :=
  { posts := [c6Post], comments := [], post_votes := [],
    comment_votes := [], notifications := [] }

/-- The C6 comment payload (author comments on their own post). -/
def c6Data : CommentModel.CommentCreationData :=
  ⟨"p1", "alice", "hi", none, true, false⟩

/-- State after creating comment c1. -/
def c6AfterCreate : Store := CommentModel.createComment "c1" 1 c6Data c6Store

/-- State after deleting c1 once. -/
def c6AfterDelete : Store :=
  (CommentModel.deleteComment "c1" c6AfterCreate).getD c6AfterCreate

/-- State after deleting c1 a second time (the comment row still exists with
status deleted, so `deleteComment` succeeds again and decrements again). -/
def c6AfterSecondDelete : Store :=
  (CommentModel.deleteComment "c1" c6AfterDelete).getD c6AfterDelete

/-- The feed query of the C7 witness: an injection attempt in sortBy and a
junk sortOrder. -/
def c7Query : PostModel.FeedQuery :=
  { sortBy := some "x; DROP TABLE posts", sortOrder := some "sideways" }

/-- A root comment for the C8 witness. -/
def c8Root : CommentRow := { sampleComment with comment_id := "a", parent_comment_id := none }

/-- A reply to the root for the C8 witness. -/
def c8Child : CommentRow := { sampleComment with comment_id := "b", parent_comment_id := some "a" }

/-- An orphan whose parent id is absent from the list. -/
def c8Orphan : CommentRow := { sampleComment with comment_id := "c", parent_comment_id := some "zz" }

/-- The C8 witness list. -/
def c8List : List CommentRow := [c8Root, c8Child, c8Orphan]

/-- An anonymous post used by the C10 witness. -/
def anonPost : PostRow := { samplePost with is_anonymous := true }

/-- An anonymous comment used by the C10 witness. -/
def anonComment : CommentRow := { sampleComment with is_anonymous := true }

namespace PostModel

/-- The per-post counters the invariant tracks: number of up vote rows. -/
def postUpCount (votes : List PostVote) (r : String) : Nat :=
  votes.countP fun v => v.post_id == r && v.vote_type == "up"

/-- Number of down vote rows for a post. -/
def postDownCount (votes : List PostVote) (r : String) : Nat :=
  votes.countP fun v => v.post_id == r && v.vote_type == "down"

/-- The vote-ledger invariant for posts: every post's counters equal its
numbers of up/down vote rows, at most one vote row per (post, user) pair
(the composite primary key), and every row's vote_type is one of the two
literals (the database enum). -/
def postLedgerConsistent (posts : List PostRow) (votes : List PostVote) : Prop :=
  (∀ p ∈ posts,
    p.upvotes = (postUpCount votes p.post_id : Int) ∧
    p.downvotes = (postDownCount votes p.post_id : Int)) ∧
  votes.Pairwise (fun a b => ¬(a.post_id = b.post_id ∧ a.user_id = b.user_id)) ∧
  (∀ v ∈ votes, v.vote_type = "up" ∨ v.vote_type = "down")

end PostModel

namespace CommentModel

/-- The per-comment counters the invariant tracks: number of up vote rows. -/
def commentUpCount (votes : List CommentVote) (r : String) : Nat :=
  votes.countP fun v => v.comment_id == r && v.vote_type == "up"

/-- Number of down vote rows for a comment. -/
def commentDownCount (votes : List CommentVote) (r : String) : Nat :=
  votes.countP fun v => v.comment_id == r && v.vote_type == "down"

/-- The vote-ledger invariant for comments: every comment's counters equal its
numbers of up/down vote rows, at most one vote row per (comment, user) pair
(the composite primary key), and every row's vote_type is one of the two
literals (the database enum). -/
def commentLedgerConsistent (posts : List CommentRow) (votes : List CommentVote) : Prop :=
  (∀ p ∈ posts,
    p.upvotes = (commentUpCount votes p.comment_id : Int) ∧
    p.downvotes = (commentDownCount votes p.comment_id : Int)) ∧
  votes.Pairwise (fun a b => ¬(a.comment_id = b.comment_id ∧ a.user_id = b.user_id)) ∧
  (∀ v ∈ votes, v.vote_type = "up" ∨ v.vote_type = "down")

end CommentModel

/-- A vote request against either ledger. -/
inductive VoteOp where
  | post (postId userId voteType : String)
  | comment (commentId userId voteType : String)
  deriving Repr, DecidableEq

/-- A valid vote operation carries one of the two literal vote types. -/
def validVoteOp : VoteOp → Prop
  | .post _ _ vt => vt = "up" ∨ vt = "down"
  | .comment _ _ vt => vt = "up" ∨ vt = "down"

instance : DecidablePred validVoteOp := fun op =>
  match op with
  | .post _ _ vt => (inferInstance : Decidable (vt = "up" ∨ vt = "down"))
  | .comment _ _ vt => (inferInstance : Decidable (vt = "up" ∨ vt = "down"))

/-- Dispatch of a vote request to `voteOnPost` / `voteOnComment`. -/
def applyVoteOp (s : Store) (op : VoteOp) : Store :=
  match op with
  | .post pid uid vt => PostModel.voteOnPost pid uid vt s
  | .comment cid uid vt => CommentModel.voteOnComment cid uid vt s

/-- A sequence of vote operations applied in order. -/
def applyVoteOps (s : Store) (ops : List VoteOp) : Store :=
  ops.foldl applyVoteOp s

/-- Both ledger invariants: counters match vote-row counts, vote rows keyed
uniquely, vote types valid. -/
def voteStateConsistent (s : Store) : Prop :=
  PostModel.postLedgerConsistent s.posts s.post_votes ∧
  CommentModel.commentLedgerConsistent s.comments s.comment_votes

instance (s : Store) : Decidable (voteStateConsistent s) := by
  unfold voteStateConsistent PostModel.postLedgerConsistent
    CommentModel.commentLedgerConsistent PostModel.postUpCount
    PostModel.postDownCount CommentModel.commentUpCount CommentModel.commentDownCount
  infer_instance

/-- The C3 witness op sequence: up, comment-down, toggle the up off again. -/
def c3Ops : List VoteOp :=
  [.post "p1" "bob" "up", .comment "c1" "bob" "down", .post "p1" "bob" "up"]

namespace PostModel

lemma voteOnPost_posts (pid uid vt : String) (s : Store) :
    (voteOnPost pid uid vt s).posts = (postVoteBranch pid uid vt s).posts := by
  cases h : voteNotifies pid uid vt s <;> simp [voteOnPost, h]

lemma voteOnPost_post_votes (pid uid vt : String) (s : Store) :
    (voteOnPost pid uid vt s).post_votes = (postVoteBranch pid uid vt s).post_votes := by
  cases h : voteNotifies pid uid vt s <;> simp [voteOnPost, h]

lemma voteOnPost_comments (pid uid vt : String) (s : Store) :
    (voteOnPost pid uid vt s).comments = s.comments := by
  have hb : (postVoteBranch pid uid vt s).comments = s.comments := by
    unfold postVoteBranch
    split
    · split
      · split <;> rfl
      · split <;> rfl
    · split <;> rfl
  cases h : voteNotifies pid uid vt s <;> simp [voteOnPost, h, hb]

lemma voteOnPost_comment_votes (pid uid vt : String) (s : Store) :
    (voteOnPost pid uid vt s).comment_votes = s.comment_votes := by
  have hb : (postVoteBranch pid uid vt s).comment_votes = s.comment_votes := by
    unfold postVoteBranch
    split
    · split
      · split <;> rfl
      · split <;> rfl
    · split <;> rfl
  cases h : voteNotifies pid uid vt s <;> simp [voteOnPost, h, hb]

lemma updatePostsWhere_cancel (S : String) (f g : PostRow → PostRow)
    (hfg : ∀ p, (f p).post_id = p.post_id)
    (hid : ∀ p, g (f p) = p) (l : List PostRow) :
    updatePostsWhere S g (updatePostsWhere S f l) = l := by
  unfold updatePostsWhere
  rw [List.map_map]
  have h : ∀ p ∈ l,
      ((fun p => if p.post_id == S then g p else p) ∘
       (fun p => if p.post_id == S then f p else p)) p = p := by
    intro p _
    by_cases h : (p.post_id == S) = true
    · simp [Function.comp, h, hfg, hid]
    · simp [Function.comp, h]
  rw [List.map_congr_left h, List.map_id']

lemma filter_not_key_of_none (S U : String) (l : List PostVote)
    (hv : l.filter (fun v => v.post_id == S && v.user_id == U) = []) :
    l.filter (fun v => !(v.post_id == S && v.user_id == U)) = l := by
  apply List.filter_eq_self.mpr
  intro v hvmem
  have hnot := List.filter_eq_nil_iff.mp hv v hvmem
  cases hcase : (v.post_id == S && v.user_id == U) with
  | true => exact absurd hcase hnot
  | false => simp [hcase]

lemma toggle_off_posts_up (S U : String) (s : Store)
    (hv : s.post_votes.filter (fun v => v.post_id == S && v.user_id == U) = []) :
    (voteOnPost S U "up" (voteOnPost S U "up" s)).posts = s.posts ∧
    (voteOnPost S U "up" (voteOnPost S U "up" s)).post_votes = s.post_votes := by
  have h1 : findVote S U s.post_votes = none := by
    unfold findVote; rw [hv]; rfl
  have hb1 : postVoteBranch S U "up" s =
      { s with post_votes := s.post_votes ++ [⟨S, U, "up"⟩],
               posts := updatePostsWhere S
                 (fun p => { p with upvotes := p.upvotes + 1 }) s.posts } := by
    unfold postVoteBranch; rw [h1]; rfl
  have v1 : (voteOnPost S U "up" s).post_votes = s.post_votes ++ [⟨S, U, "up"⟩] := by
    rw [voteOnPost_post_votes, hb1]
  have p1 : (voteOnPost S U "up" s).posts =
      updatePostsWhere S (fun p => { p with upvotes := p.upvotes + 1 }) s.posts := by
    rw [voteOnPost_posts, hb1]
  have h2 : findVote S U (voteOnPost S U "up" s).post_votes = some "up" := by
    unfold findVote
    rw [v1, List.filter_append, hv]
    simp
  have hb2 : postVoteBranch S U "up" (voteOnPost S U "up" s) =
      { (voteOnPost S U "up" s) with
        post_votes := (voteOnPost S U "up" s).post_votes.filter
          (fun v => !(v.post_id == S && v.user_id == U)),
        posts := updatePostsWhere S
          (fun p => { p with upvotes := p.upvotes - 1 })
          (voteOnPost S U "up" s).posts } := by
    unfold postVoteBranch; rw [h2]; rfl
  constructor
  · rw [voteOnPost_posts, hb2]
    dsimp only
    rw [p1, updatePostsWhere_cancel]
    · intro p; rfl
    · intro p; simp
  · rw [voteOnPost_post_votes, hb2]
    dsimp only
    rw [v1, List.filter_append, filter_not_key_of_none S U s.post_votes hv]
    simp

lemma updatePostsWhere_comp (S : String) (f g h : PostRow → PostRow)
    (hfg : ∀ p, (f p).post_id = p.post_id)
    (hcomp : ∀ p, g (f p) = h p) (l : List PostRow) :
    updatePostsWhere S g (updatePostsWhere S f l) = updatePostsWhere S h l := by
  unfold updatePostsWhere
  rw [List.map_map]
  apply List.map_congr_left
  intro p _
  by_cases hc : (p.post_id == S) = true
  · simp [Function.comp, hc, hfg, hcomp]
  · simp [Function.comp, hc]

lemma switch_posts (S U : String) (s : Store)
    (hv : s.post_votes.filter (fun v => v.post_id == S && v.user_id == U) = []) :
    (voteOnPost S U "down" (voteOnPost S U "up" s)).post_votes =
      s.post_votes ++ [⟨S, U, "down"⟩] ∧
    (voteOnPost S U "down" (voteOnPost S U "up" s)).posts =
      updatePostsWhere S (fun p => { p with downvotes := p.downvotes + 1 }) s.posts := by
  have h1 : findVote S U s.post_votes = none := by
    unfold findVote; rw [hv]; rfl
  have hb1 : postVoteBranch S U "up" s =
      { s with post_votes := s.post_votes ++ [⟨S, U, "up"⟩],
               posts := updatePostsWhere S
                 (fun p => { p with upvotes := p.upvotes + 1 }) s.posts } := by
    unfold postVoteBranch; rw [h1]; rfl
  have v1 : (voteOnPost S U "up" s).post_votes = s.post_votes ++ [⟨S, U, "up"⟩] := by
    rw [voteOnPost_post_votes, hb1]
  have p1 : (voteOnPost S U "up" s).posts =
      updatePostsWhere S (fun p => { p with upvotes := p.upvotes + 1 }) s.posts := by
    rw [voteOnPost_posts, hb1]
  have h2 : findVote S U (voteOnPost S U "up" s).post_votes = some "up" := by
    unfold findVote
    rw [v1, List.filter_append, hv]
    simp
  have hb2 : postVoteBranch S U "down" (voteOnPost S U "up" s) =
      { (voteOnPost S U "up" s) with
        post_votes := (voteOnPost S U "up" s).post_votes.map
          (fun v => if v.post_id == S && v.user_id == U then
            { v with vote_type := "down" } else v),
        posts := updatePostsWhere S
          (fun p => { p with upvotes := p.upvotes - 1, downvotes := p.downvotes + 1 })
          (voteOnPost S U "up" s).posts } := by
    unfold postVoteBranch; rw [h2]; rfl
  constructor
  · rw [voteOnPost_post_votes, hb2]
    dsimp only
    rw [v1, List.map_append]
    have hmap : s.post_votes.map
        (fun v => if v.post_id == S && v.user_id == U then
          { v with vote_type := "down" } else v) = s.post_votes := by
      have h : ∀ v ∈ s.post_votes,
          (if v.post_id == S && v.user_id == U then
            ({ v with vote_type := "down" } : PostVote) else v) = v := by
        intro v hvmem
        have hnot := List.filter_eq_nil_iff.mp hv v hvmem
        cases hcase : (v.post_id == S && v.user_id == U) with
        | true => exact absurd hcase hnot
        | false => simp [hcase]
      rw [List.map_congr_left h, List.map_id']
    rw [hmap]
    simp
  · rw [voteOnPost_posts, hb2]
    dsimp only
    rw [p1, updatePostsWhere_comp]
    · intro p; rfl
    · intro p; simp

lemma toggle_off_posts_down (S U : String) (s : Store)
    (hv : s.post_votes.filter (fun v => v.post_id == S && v.user_id == U) = []) :
    (voteOnPost S U "down" (voteOnPost S U "down" s)).posts = s.posts ∧
    (voteOnPost S U "down" (voteOnPost S U "down" s)).post_votes = s.post_votes := by
  have h1 : findVote S U s.post_votes = none := by
    unfold findVote; rw [hv]; rfl
  have hb1 : postVoteBranch S U "down" s =
      { s with post_votes := s.post_votes ++ [⟨S, U, "down"⟩],
               posts := updatePostsWhere S
                 (fun p => { p with downvotes := p.downvotes + 1 }) s.posts } := by
    unfold postVoteBranch; rw [h1]; rfl
  have v1 : (voteOnPost S U "down" s).post_votes = s.post_votes ++ [⟨S, U, "down"⟩] := by
    rw [voteOnPost_post_votes, hb1]
  have p1 : (voteOnPost S U "down" s).posts =
      updatePostsWhere S (fun p => { p with downvotes := p.downvotes + 1 }) s.posts := by
    rw [voteOnPost_posts, hb1]
  have h2 : findVote S U (voteOnPost S U "down" s).post_votes = some "down" := by
    unfold findVote
    rw [v1, List.filter_append, hv]
    simp
  have hb2 : postVoteBranch S U "down" (voteOnPost S U "down" s) =
      { (voteOnPost S U "down" s) with
        post_votes := (voteOnPost S U "down" s).post_votes.filter
          (fun v => !(v.post_id == S && v.user_id == U)),
        posts := updatePostsWhere S
          (fun p => { p with downvotes := p.downvotes - 1 })
          (voteOnPost S U "down" s).posts } := by
    unfold postVoteBranch; rw [h2]; rfl
  constructor
  · rw [voteOnPost_posts, hb2]
    dsimp only
    rw [p1, updatePostsWhere_cancel]
    · intro p; rfl
    · intro p; simp
  · rw [voteOnPost_post_votes, hb2]
    dsimp only
    rw [v1, List.filter_append, filter_not_key_of_none S U s.post_votes hv]
    simp

end PostModel

namespace CommentModel

lemma voteOnComment_comments (cid uid vt : String) (s : Store) :
    (voteOnComment cid uid vt s).comments = (commentVoteBranch cid uid vt s).comments := by
  cases h : voteNotifies cid uid vt s <;> simp [voteOnComment, h]

lemma voteOnComment_comment_votes (cid uid vt : String) (s : Store) :
    (voteOnComment cid uid vt s).comment_votes =
      (commentVoteBranch cid uid vt s).comment_votes := by
  cases h : voteNotifies cid uid vt s <;> simp [voteOnComment, h]

lemma voteOnComment_posts (cid uid vt : String) (s : Store) :
    (voteOnComment cid uid vt s).posts = s.posts := by
  have hb : (commentVoteBranch cid uid vt s).posts = s.posts := by
    unfold commentVoteBranch
    split
    · split
      · split <;> rfl
      · split <;> rfl
    · split <;> rfl
  cases h : voteNotifies cid uid vt s <;> simp [voteOnComment, h, hb]

lemma voteOnComment_post_votes (cid uid vt : String) (s : Store) :
    (voteOnComment cid uid vt s).post_votes = s.post_votes := by
  have hb : (commentVoteBranch cid uid vt s).post_votes = s.post_votes := by
    unfold commentVoteBranch
    split
    · split
      · split <;> rfl
      · split <;> rfl
    · split <;> rfl
  cases h : voteNotifies cid uid vt s <;> simp [voteOnComment, h, hb]

lemma updateCommentsWhere_cancel (S : String) (f g : CommentRow → CommentRow)
    (hfg : ∀ c, (f c).comment_id = c.comment_id)
    (hid : ∀ c, g (f c) = c) (l : List CommentRow) :
    updateCommentsWhere S g (updateCommentsWhere S f l) = l := by
  unfold updateCommentsWhere
  rw [List.map_map]
  have h : ∀ c ∈ l,
      ((fun c => if c.comment_id == S then g c else c) ∘
       (fun c => if c.comment_id == S then f c else c)) c = c := by
    intro c _
    by_cases h : (c.comment_id == S) = true
    · simp [Function.comp, h, hfg, hid]
    · simp [Function.comp, h]
  rw [List.map_congr_left h, List.map_id']

lemma comment_filter_not_key_of_none (S U : String) (l : List CommentVote)
    (hv : l.filter (fun v => v.comment_id == S && v.user_id == U) = []) :
    l.filter (fun v => !(v.comment_id == S && v.user_id == U)) = l := by
  apply List.filter_eq_self.mpr
  intro v hvmem
  have hnot := List.filter_eq_nil_iff.mp hv v hvmem
  cases hcase : (v.comment_id == S && v.user_id == U) with
  | true => exact absurd hcase hnot
  | false => simp [hcase]

lemma toggle_off_comments_up (S U : String) (s : Store)
    (hv : s.comment_votes.filter (fun v => v.comment_id == S && v.user_id == U) = []) :
    (voteOnComment S U "up" (voteOnComment S U "up" s)).comments = s.comments ∧
    (voteOnComment S U "up" (voteOnComment S U "up" s)).comment_votes = s.comment_votes := by
  have h1 : findVote S U s.comment_votes = none := by
    unfold findVote; rw [hv]; rfl
  have hb1 : commentVoteBranch S U "up" s =
      { s with comment_votes := s.comment_votes ++ [⟨S, U, "up"⟩],
               comments := updateCommentsWhere S
                 (fun c => { c with upvotes := c.upvotes + 1 }) s.comments } := by
    unfold commentVoteBranch; rw [h1]; rfl
  have v1 : (voteOnComment S U "up" s).comment_votes =
      s.comment_votes ++ [⟨S, U, "up"⟩] := by
    rw [voteOnComment_comment_votes, hb1]
  have p1 : (voteOnComment S U "up" s).comments =
      updateCommentsWhere S (fun c => { c with upvotes := c.upvotes + 1 }) s.comments := by
    rw [voteOnComment_comments, hb1]
  have h2 : findVote S U (voteOnComment S U "up" s).comment_votes = some "up" := by
    unfold findVote
    rw [v1, List.filter_append, hv]
    simp
  have hb2 : commentVoteBranch S U "up" (voteOnComment S U "up" s) =
      { (voteOnComment S U "up" s) with
        comment_votes := (voteOnComment S U "up" s).comment_votes.filter
          (fun v => !(v.comment_id == S && v.user_id == U)),
        comments := updateCommentsWhere S
          (fun c => { c with upvotes := c.upvotes - 1 })
          (voteOnComment S U "up" s).comments } := by
    unfold commentVoteBranch; rw [h2]; rfl
  constructor
  · rw [voteOnComment_comments, hb2]
    dsimp only
    rw [p1, updateCommentsWhere_cancel]
    · intro c; rfl
    · intro c; simp
  · rw [voteOnComment_comment_votes, hb2]
    dsimp only
    rw [v1, List.filter_append, comment_filter_not_key_of_none S U s.comment_votes hv]
    simp

lemma updateCommentsWhere_comp (S : String) (f g h : CommentRow → CommentRow)
    (hfg : ∀ c, (f c).comment_id = c.comment_id)
    (hcomp : ∀ c, g (f c) = h c) (l : List CommentRow) :
    updateCommentsWhere S g (updateCommentsWhere S f l) = updateCommentsWhere S h l := by
  unfold updateCommentsWhere
  rw [List.map_map]
  apply List.map_congr_left
  intro c _
  by_cases hc : (c.comment_id == S) = true
  · simp [Function.comp, hc, hfg, hcomp]
  · simp [Function.comp, hc]

lemma switch_comments (S U : String) (s : Store)
    (hv : s.comment_votes.filter (fun v => v.comment_id == S && v.user_id == U) = []) :
    (voteOnComment S U "down" (voteOnComment S U "up" s)).comment_votes =
      s.comment_votes ++ [⟨S, U, "down"⟩] ∧
    (voteOnComment S U "down" (voteOnComment S U "up" s)).comments =
      updateCommentsWhere S (fun c => { c with downvotes := c.downvotes + 1 }) s.comments := by
  have h1 : findVote S U s.comment_votes = none := by
    unfold findVote; rw [hv]; rfl
  have hb1 : commentVoteBranch S U "up" s =
      { s with comment_votes := s.comment_votes ++ [⟨S, U, "up"⟩],
               comments := updateCommentsWhere S
                 (fun c => { c with upvotes := c.upvotes + 1 }) s.comments } := by
    unfold commentVoteBranch; rw [h1]; rfl
  have v1 : (voteOnComment S U "up" s).comment_votes =
      s.comment_votes ++ [⟨S, U, "up"⟩] := by
    rw [voteOnComment_comment_votes, hb1]
  have p1 : (voteOnComment S U "up" s).comments =
      updateCommentsWhere S (fun c => { c with upvotes := c.upvotes + 1 }) s.comments := by
    rw [voteOnComment_comments, hb1]
  have h2 : findVote S U (voteOnComment S U "up" s).comment_votes = some "up" := by
    unfold findVote
    rw [v1, List.filter_append, hv]
    simp
  have hb2 : commentVoteBranch S U "down" (voteOnComment S U "up" s) =
      { (voteOnComment S U "up" s) with
        comment_votes := (voteOnComment S U "up" s).comment_votes.map
          (fun v => if v.comment_id == S && v.user_id == U then
            { v with vote_type := "down" } else v),
        comments := updateCommentsWhere S
          (fun c => { c with upvotes := c.upvotes - 1, downvotes := c.downvotes + 1 })
          (voteOnComment S U "up" s).comments } := by
    unfold commentVoteBranch; rw [h2]; rfl
  constructor
  · rw [voteOnComment_comment_votes, hb2]
    dsimp only
    rw [v1, List.map_append]
    have hmap : s.comment_votes.map
        (fun v => if v.comment_id == S && v.user_id == U then
          { v with vote_type := "down" } else v) = s.comment_votes := by
      have h : ∀ v ∈ s.comment_votes,
          (if v.comment_id == S && v.user_id == U then
            ({ v with vote_type := "down" } : CommentVote) else v) = v := by
        intro v hvmem
        have hnot := List.filter_eq_nil_iff.mp hv v hvmem
        cases hcase : (v.comment_id == S && v.user_id == U) with
        | true => exact absurd hcase hnot
        | false => simp [hcase]
      rw [List.map_congr_left h, List.map_id']
    rw [hmap]
    simp
  · rw [voteOnComment_comments, hb2]
    dsimp only
    rw [p1, updateCommentsWhere_comp]
    · intro c; rfl
    · intro c; simp

lemma toggle_off_comments_down (S U : String) (s : Store)
    (hv : s.comment_votes.filter (fun v => v.comment_id == S && v.user_id == U) = []) :
    (voteOnComment S U "down" (voteOnComment S U "down" s)).comments = s.comments ∧
    (voteOnComment S U "down" (voteOnComment S U "down" s)).comment_votes = s.comment_votes := by
  have h1 : findVote S U s.comment_votes = none := by
    unfold findVote; rw [hv]; rfl
  have hb1 : commentVoteBranch S U "down" s =
      { s with comment_votes := s.comment_votes ++ [⟨S, U, "down"⟩],
               comments := updateCommentsWhere S
                 (fun c => { c with downvotes := c.downvotes + 1 }) s.comments } := by
    unfold commentVoteBranch; rw [h1]; rfl
  have v1 : (voteOnComment S U "down" s).comment_votes =
      s.comment_votes ++ [⟨S, U, "down"⟩] := by
    rw [voteOnComment_comment_votes, hb1]
  have p1 : (voteOnComment S U "down" s).comments =
      updateCommentsWhere S (fun c => { c with downvotes := c.downvotes + 1 }) s.comments := by
    rw [voteOnComment_comments, hb1]
  have h2 : findVote S U (voteOnComment S U "down" s).comment_votes = some "down" := by
    unfold findVote
    rw [v1, List.filter_append, hv]
    simp
  have hb2 : commentVoteBranch S U "down" (voteOnComment S U "down" s) =
      { (voteOnComment S U "down" s) with
        comment_votes := (voteOnComment S U "down" s).comment_votes.filter
          (fun v => !(v.comment_id == S && v.user_id == U)),
        comments := updateCommentsWhere S
          (fun c => { c with downvotes := c.downvotes - 1 })
          (voteOnComment S U "down" s).comments } := by
    unfold commentVoteBranch; rw [h2]; rfl
  constructor
  · rw [voteOnComment_comments, hb2]
    dsimp only
    rw [p1, updateCommentsWhere_cancel]
    · intro c; rfl
    · intro c; simp
  · rw [voteOnComment_comment_votes, hb2]
    dsimp only
    rw [v1, List.filter_append, comment_filter_not_key_of_none S U s.comment_votes hv]
    simp

end CommentModel

/-- C1.  Toggle-off round trip: for every subject (post or comment), user and
vote type in up/down, starting from a state with no vote row for the pair,
voting twice with the same type restores the subject table (hence both
counters) and the vote table, and leaves no vote row for the pair. -/
theorem c1_toggle_off_round_trip :
    (∀ (S U t : String) (s : Store), (t = "up" ∨ t = "down") →
      s.post_votes.filter (fun v => v.post_id == S && v.user_id == U) = [] →
      (PostModel.voteOnPost S U t (PostModel.voteOnPost S U t s)).posts = s.posts ∧
      (PostModel.voteOnPost S U t (PostModel.voteOnPost S U t s)).post_votes = s.post_votes ∧
      ((PostModel.voteOnPost S U t (PostModel.voteOnPost S U t s)).post_votes.filter
        (fun v => v.post_id == S && v.user_id == U)) = []) ∧
    (∀ (S U t : String) (s : Store), (t = "up" ∨ t = "down") →
      s.comment_votes.filter (fun v => v.comment_id == S && v.user_id == U) = [] →
      (CommentModel.voteOnComment S U t (CommentModel.voteOnComment S U t s)).comments = s.comments ∧
      (CommentModel.voteOnComment S U t (CommentModel.voteOnComment S U t s)).comment_votes = s.comment_votes ∧
      ((CommentModel.voteOnComment S U t (CommentModel.voteOnComment S U t s)).comment_votes.filter
        (fun v => v.comment_id == S && v.user_id == U)) = []) := by
  constructor
  · intro S U t s ht hv
    rcases ht with rfl | rfl
    · obtain ⟨h1, h2⟩ := PostModel.toggle_off_posts_up S U s hv
      exact ⟨h1, h2, by rw [h2]; exact hv⟩
    · obtain ⟨h1, h2⟩ := PostModel.toggle_off_posts_down S U s hv
      exact ⟨h1, h2, by rw [h2]; exact hv⟩
  · intro S U t s ht hv
    rcases ht with rfl | rfl
    · obtain ⟨h1, h2⟩ := CommentModel.toggle_off_comments_up S U s hv
      exact ⟨h1, h2, by rw [h2]; exact hv⟩
    · obtain ⟨h1, h2⟩ := CommentModel.toggle_off_comments_down S U s hv
      exact ⟨h1, h2, by rw [h2]; exact hv⟩

/-- C2.  Switch semantics: from a state with no vote row for the pair, voting
up then down leaves exactly one vote row for the pair (type down), the post
table updated only by one extra downvote on the subject (upvotes at
baseline), and likewise for comments. -/
theorem c2_switch_semantics :
    (∀ (S U : String) (s : Store),
      s.post_votes.filter (fun v => v.post_id == S && v.user_id == U) = [] →
      (PostModel.voteOnPost S U "down" (PostModel.voteOnPost S U "up" s)).post_votes =
        s.post_votes ++ [⟨S, U, "down"⟩] ∧
      (PostModel.voteOnPost S U "down" (PostModel.voteOnPost S U "up" s)).posts =
        PostModel.updatePostsWhere S
          (fun p => { p with downvotes := p.downvotes + 1 }) s.posts ∧
      ((PostModel.voteOnPost S U "down" (PostModel.voteOnPost S U "up" s)).post_votes.filter
        (fun v => v.post_id == S && v.user_id == U)) = [⟨S, U, "down"⟩]) ∧
    (∀ (S U : String) (s : Store),
      s.comment_votes.filter (fun v => v.comment_id == S && v.user_id == U) = [] →
      (CommentModel.voteOnComment S U "down" (CommentModel.voteOnComment S U "up" s)).comment_votes =
        s.comment_votes ++ [⟨S, U, "down"⟩] ∧
      (CommentModel.voteOnComment S U "down" (CommentModel.voteOnComment S U "up" s)).comments =
        CommentModel.updateCommentsWhere S
          (fun c => { c with downvotes := c.downvotes + 1 }) s.comments ∧
      ((CommentModel.voteOnComment S U "down" (CommentModel.voteOnComment S U "up" s)).comment_votes.filter
        (fun v => v.comment_id == S && v.user_id == U)) = [⟨S, U, "down"⟩]) := by
  constructor
  · intro S U s hv
    obtain ⟨hvotes, hposts⟩ := PostModel.switch_posts S U s hv
    refine ⟨hvotes, hposts, ?_⟩
    rw [hvotes, List.filter_append, hv]
    simp
  · intro S U s hv
    obtain ⟨hvotes, hcomments⟩ := CommentModel.switch_comments S U s hv
    refine ⟨hvotes, hcomments, ?_⟩
    rw [hvotes, List.filter_append, hv]
    simp

/-- Witness for C2 at the concrete store. -/
theorem c2_switch_semantics_witness :
    (PostModel.voteOnPost "p1" "bob" "down"
      (PostModel.voteOnPost "p1" "bob" "up" sampleStore)).post_votes =
      sampleStore.post_votes ++ [⟨"p1", "bob", "down"⟩] ∧
    (CommentModel.voteOnComment "c1" "bob" "down"
      (CommentModel.voteOnComment "c1" "bob" "up" sampleStore)).comment_votes =
      sampleStore.comment_votes ++ [⟨"c1", "bob", "down"⟩] :=
  ⟨(c2_switch_semantics.1 "p1" "bob" sampleStore (by decide)).1,
   (c2_switch_semantics.2 "c1" "bob" sampleStore (by decide)).1⟩

/-- Witness for C1 at the concrete store. -/
theorem c1_toggle_off_round_trip_witness :
    (PostModel.voteOnPost "p1" "bob" "up"
      (PostModel.voteOnPost "p1" "bob" "up" sampleStore)).posts = sampleStore.posts ∧
    (CommentModel.voteOnComment "c1" "bob" "down"
      (CommentModel.voteOnComment "c1" "bob" "down" sampleStore)).comment_votes =
      sampleStore.comment_votes :=
  ⟨(c1_toggle_off_round_trip.1 "p1" "bob" "up" sampleStore (Or.inl rfl) (by decide)).1,
   (c1_toggle_off_round_trip.2 "c1" "bob" "down" sampleStore (Or.inr rfl) (by decide)).2.1⟩

/-- C4 (amended).  The notification INSERT sits inside the vote transaction:
when it is reached and fails, the `catch` block rolls the whole transaction
back, so the caller observes the pre-vote store — the vote does NOT stand.
When it does not fail (or is not reached), the transaction commits the full
vote result. -/
theorem c4_notification_failure_rolls_back_vote :
    (∀ (pid uid vt : String) (s : Store),
      PostModel.voteNotifies pid uid vt s = true →
      PostModel.voteOnPostTx true pid uid vt s = none ∧
      committed (PostModel.voteOnPostTx true pid uid vt s) s = s) ∧
    (∀ (pid uid vt : String) (s : Store),
      PostModel.voteOnPostTx false pid uid vt s =
        some (PostModel.voteOnPost pid uid vt s)) ∧
    (∀ (cid uid vt : String) (s : Store),
      CommentModel.voteNotifies cid uid vt s = true →
      CommentModel.voteOnCommentTx true cid uid vt s = none ∧
      committed (CommentModel.voteOnCommentTx true cid uid vt s) s = s) ∧
    (∀ (cid uid vt : String) (s : Store),
      CommentModel.voteOnCommentTx false cid uid vt s =
        some (CommentModel.voteOnComment cid uid vt s)) := by
  refine ⟨?_, ?_, ?_, ?_⟩
  · intro pid uid vt s h
    constructor <;> simp [PostModel.voteOnPostTx, h, committed]
  · intro pid uid vt s
    simp [PostModel.voteOnPostTx]
  · intro cid uid vt s h
    constructor <;> simp [CommentModel.voteOnCommentTx, h, committed]
  · intro cid uid vt s
    simp [CommentModel.voteOnCommentTx]

/-- C4 counterexample: at a concrete store, the vote-row and counter
mutations succeed and only the notification INSERT fails, yet the committed
state carries no vote row and unchanged counters — the vote does not
survive, contradicting the claim that it stands. -/
theorem c4_vote_lost_on_notification_failure :
    PostModel.voteNotifies "p1" "bob" "up" sampleStore = true ∧
    committed (PostModel.voteOnPostTx true "p1" "bob" "up" sampleStore) sampleStore =
      sampleStore ∧
    ((committed (PostModel.voteOnPostTx true "p1" "bob" "up" sampleStore)
        sampleStore).post_votes.filter
      (fun v => v.post_id == "p1" && v.user_id == "bob")) = [] ∧
    (∀ p ∈ (committed (PostModel.voteOnPostTx true "p1" "bob" "up" sampleStore)
        sampleStore).posts, p.upvotes = 0) := by
  decide

/-- Witness for C4 (amended) at the concrete store. -/
theorem c4_notification_failure_rolls_back_vote_witness :
    PostModel.voteOnPostTx true "p1" "bob" "up" sampleStore = none :=
  (c4_notification_failure_rolls_back_vote.1 "p1" "bob" "up" sampleStore (by decide)).1

/-- C5 divergence: a feed query that omits `withExpertResponse` (all fields
absent) still constrains `expert_responded = false`, because the
destructuring default `withExpertResponse = false` makes the
`!== undefined` guard vacuous.  The active expert-responded post is
excluded from the feed that the claim says must contain it; passing the flag
explicitly as true finds it. -/
theorem c5_absent_expert_filter_still_constrains :
    expertPost.status = "active" ∧
    expertPost.expert_responded = true ∧
    PostModel.feedMatches {} expertPost = false ∧
    PostModel.getFeedPosts {} expertStore = ([], 0) ∧
    PostModel.getFeedPosts { withExpertResponse := some true } expertStore =
      ([expertPost], 1) := by
  decide

/-- C6 divergence: the comment-count invariant holds after create and one
delete, but a second `deleteComment` on the already-deleted comment succeeds
and decrements `comment_count` to −1 while zero active comments reference the
post — the invariant the claim states is broken by the code. -/
theorem c6_double_delete_breaks_comment_count :
    CommentModel.commentCountConsistent c6Store ∧
    CommentModel.commentCountConsistent c6AfterCreate ∧
    CommentModel.commentCountConsistent c6AfterDelete ∧
    (CommentModel.deleteComment "c1" c6AfterDelete).isSome = true ∧
    ¬ CommentModel.commentCountConsistent c6AfterSecondDelete ∧
    (∀ p ∈ c6AfterSecondDelete.posts, p.comment_count = -1) ∧
    CommentModel.activeCommentCount c6AfterSecondDelete "p1" = 0 := by
  decide

/-- C9 (amended).  Requests with a voteType other than the literals up/down
are rejected by the controllers before the model (and hence storage) is
touched; the model-layer ledger itself performs no voteType validation — an
unrecognized voteType reaching it on a fresh (subject, user) pair is inserted
verbatim as a vote row and counted as a downvote. -/
theorem c9_controller_validates_ledger_does_not :
    (∀ (pid uid vt : String) (s : Store), vt ≠ "up" → vt ≠ "down" →
      PostController.voteOnPost pid uid vt s = (s, false)) ∧
    (∀ (cid uid vt : String) (s : Store), vt ≠ "up" → vt ≠ "down" →
      CommentController.voteOnComment cid uid vt s = (s, false)) ∧
    (∀ (pid uid vt : String) (s : Store), vt ≠ "up" →
      PostModel.findVote pid uid s.post_votes = none →
      (PostModel.voteOnPost pid uid vt s).post_votes =
        s.post_votes ++ [⟨pid, uid, vt⟩] ∧
      (PostModel.voteOnPost pid uid vt s).posts =
        PostModel.updatePostsWhere pid
          (fun p => { p with downvotes := p.downvotes + 1 }) s.posts) ∧
    (∀ (cid uid vt : String) (s : Store), vt ≠ "up" →
      CommentModel.findVote cid uid s.comment_votes = none →
      (CommentModel.voteOnComment cid uid vt s).comment_votes =
        s.comment_votes ++ [⟨cid, uid, vt⟩] ∧
      (CommentModel.voteOnComment cid uid vt s).comments =
        CommentModel.updateCommentsWhere cid
          (fun c => { c with downvotes := c.downvotes + 1 }) s.comments) := by
  refine ⟨?_, ?_, ?_, ?_⟩
  · intro pid uid vt s h1 h2
    simp [PostController.voteOnPost, h1, h2]
  · intro cid uid vt s h1 h2
    simp [CommentController.voteOnComment, h1, h2]
  · intro pid uid vt s h1 hfind
    have hbeq : (vt == "up") = false := by simp [h1]
    have hb : PostModel.postVoteBranch pid uid vt s =
        { s with post_votes := s.post_votes ++ [⟨pid, uid, vt⟩],
                 posts := PostModel.updatePostsWhere pid
                   (fun p => { p with downvotes := p.downvotes + 1 }) s.posts } := by
      unfold PostModel.postVoteBranch
      rw [hfind]
      simp [hbeq]
    exact ⟨by rw [PostModel.voteOnPost_post_votes, hb],
           by rw [PostModel.voteOnPost_posts, hb]⟩
  · intro cid uid vt s h1 hfind
    have hbeq : (vt == "up") = false := by simp [h1]
    have hb : CommentModel.commentVoteBranch cid uid vt s =
        { s with comment_votes := s.comment_votes ++ [⟨cid, uid, vt⟩],
                 comments := CommentModel.updateCommentsWhere cid
                   (fun c => { c with downvotes := c.downvotes + 1 }) s.comments } := by
      unfold CommentModel.commentVoteBranch
      rw [hfind]
      simp [hbeq]
    exact ⟨by rw [CommentModel.voteOnComment_comment_votes, hb],
           by rw [CommentModel.voteOnComment_comments, hb]⟩

/-- C9 counterexample: the ledger does not reject an invalid voteType — at a
concrete store, `voteOnPost` with voteType "sideways" mutates the vote table
(inserting the bogus value verbatim) and increments downvotes, instead of
rejecting without mutation as the claim states. -/
theorem c9_ledger_accepts_invalid_vote_type :
    (PostModel.voteOnPost "p1" "bob" "sideways" sampleStore).post_votes =
      [⟨"p1", "bob", "sideways"⟩] ∧
    (∀ p ∈ (PostModel.voteOnPost "p1" "bob" "sideways" sampleStore).posts,
      p.downvotes = 1) := by
  decide

/-- Witness for C9 (amended) at concrete inputs. -/
theorem c9_controller_validates_ledger_does_not_witness :
    PostController.voteOnPost "p1" "bob" "sideways" sampleStore =
      (sampleStore, false) ∧
    (PostModel.voteOnPost "p1" "bob" "sideways" sampleStore).post_votes =
      sampleStore.post_votes ++ [⟨"p1", "bob", "sideways"⟩] :=
  ⟨c9_controller_validates_ledger_does_not.1 "p1" "bob" "sideways" sampleStore
      (by decide) (by decide),
   (c9_controller_validates_ledger_does_not.2.2.1 "p1" "bob" "sideways" sampleStore
      (by decide) (by decide)).1⟩

/-- C10.  Anonymity noninterference at each of the four response-shaping
sites: an anonymous subject's response carries a null author_username, and
the shaped response does not depend on the stored username. -/
theorem c10_anonymity_noninterference :
    (∀ p : PostRow, p.is_anonymous = true →
      (PostController.getFeedProcessPost p).author_username = none ∧
      ∀ u u' : Option String,
        PostController.getFeedProcessPost { p with author_username := u } =
          PostController.getFeedProcessPost { p with author_username := u' }) ∧
    (∀ p : PostRow, p.is_anonymous = true →
      (PostController.getPostHideAnonymous p).author_username = none ∧
      ∀ u u' : Option String,
        PostController.getPostHideAnonymous { p with author_username := u } =
          PostController.getPostHideAnonymous { p with author_username := u' }) ∧
    (∀ c : CommentRow, c.is_anonymous = true →
      (CommentController.getPostCommentsProcessComment c).author_username = none ∧
      (CommentController.toCommentResponse
        (CommentController.getPostCommentsProcessComment c)).author_username = none ∧
      ∀ u u' : Option String,
        CommentController.getPostCommentsProcessComment { c with author_username := u } =
          CommentController.getPostCommentsProcessComment { c with author_username := u' }) ∧
    (∀ c : CommentRow, c.is_anonymous = true →
      (CommentController.voteOnCommentHideAnonymous c).author_username = none ∧
      ∀ u u' : Option String,
        CommentController.voteOnCommentHideAnonymous { c with author_username := u } =
          CommentController.voteOnCommentHideAnonymous { c with author_username := u' }) := by
  refine ⟨?_, ?_, ?_, ?_⟩
  · intro p hp
    exact ⟨by simp [PostController.getFeedProcessPost, hp],
           fun u u' => by simp [PostController.getFeedProcessPost, hp]⟩
  · intro p hp
    exact ⟨by simp [PostController.getPostHideAnonymous, hp],
           fun u u' => by simp [PostController.getPostHideAnonymous, hp]⟩
  · intro c hc
    refine ⟨by simp [CommentController.getPostCommentsProcessComment, hc],
            by simp [CommentController.getPostCommentsProcessComment,
                     CommentController.toCommentResponse, hc],
            fun u u' => by simp [CommentController.getPostCommentsProcessComment, hc]⟩
  · intro c hc
    exact ⟨by simp [CommentController.voteOnCommentHideAnonymous, hc],
           fun u u' => by simp [CommentController.voteOnCommentHideAnonymous, hc]⟩

namespace PostModel

lemma mem_orderedInsert (le : PostRow → PostRow → Bool) (a x : PostRow) (l : List PostRow) :
    x ∈ orderedInsert le a l ↔ x = a ∨ x ∈ l := by
  induction l with
  | nil => simp [orderedInsert]
  | cons b l ih =>
    unfold orderedInsert
    split
    · simp [or_comm, or_left_comm]
    · simp [ih, or_comm, or_left_comm]

lemma orderedInsert_pairwise (le : PostRow → PostRow → Bool)
    (htot : ∀ a b, le a b = true ∨ le b a = true)
    (htrans : ∀ a b c, le a b = true → le b c = true → le a c = true)
    (a : PostRow) (l : List PostRow)
    (hl : l.Pairwise fun x y => le x y = true) :
    (orderedInsert le a l).Pairwise fun x y => le x y = true := by
  induction l with
  | nil => simp [orderedInsert]
  | cons b l ih =>
    unfold orderedInsert
    rw [List.pairwise_cons] at hl
    split
    · next hab =>
      rw [List.pairwise_cons]
      refine ⟨?_, List.pairwise_cons.mpr hl⟩
      intro x hx
      rcases List.mem_cons.mp hx with rfl | hxl
      · exact hab
      · exact htrans a b x hab (hl.1 x hxl)
    · next hab =>
      have hba : le b a = true := by
        rcases htot a b with h | h
        · exact absurd h hab
        · exact h
      rw [List.pairwise_cons]
      refine ⟨?_, ih hl.2⟩
      intro x hx
      rcases (mem_orderedInsert le a x l).mp hx with rfl | hxl
      · exact hba
      · exact hl.1 x hxl

lemma sortPosts_pairwise (le : PostRow → PostRow → Bool)
    (htot : ∀ a b, le a b = true ∨ le b a = true)
    (htrans : ∀ a b c, le a b = true → le b c = true → le a c = true)
    (l : List PostRow) :
    (sortPosts le l).Pairwise fun x y => le x y = true := by
  induction l with
  | nil => simp [sortPosts]
  | cons a l ih => exact orderedInsert_pairwise le htot htrans a _ ih

lemma feedLe_desc_total (f : String) (a b : PostRow) :
    feedLe f "DESC" a b = true ∨ feedLe f "DESC" b a = true := by
  simp [feedLe]
  exact Int.le_total (sortKey f b) (sortKey f a)

lemma feedLe_desc_trans (f : String) (a b c : PostRow)
    (h1 : feedLe f "DESC" a b = true) (h2 : feedLe f "DESC" b c = true) :
    feedLe f "DESC" a c = true := by
  simp [feedLe] at h1 h2 ⊢
  exact le_trans h2 h1

end PostModel

/-- C7.  Sort whitelist fallback: a sortBy outside the allow-list makes
`getFeedPosts` behave exactly as sortBy = created_at (the resolved identifier
is always drawn from the allow-list, so no user string reaches the ORDER BY);
any sortOrder other than asc (case-insensitively) yields a page that is
sorted descending by the resolved field.  The function is a pure read of the
store: it returns data without producing a new store. -/
theorem c7_sort_whitelist_fallback :
    (∀ (s : Store) (q : PostModel.FeedQuery) (b : String),
      q.sortBy = some b → b ∉ PostModel.allowedSortFields →
      PostModel.getFeedPosts q s =
        PostModel.getFeedPosts { q with sortBy := some "created_at" } s ∧
      PostModel.resolveSortBy b = "created_at") ∧
    (∀ (s : Store) (q : PostModel.FeedQuery) (o : String),
      q.sortOrder = some o → strToUpper o ≠ "ASC" →
      ((PostModel.getFeedPosts q s).1).Pairwise fun a b =>
        PostModel.feedLe (PostModel.resolveSortBy (q.sortBy.getD "created_at"))
          "DESC" a b = true) ∧
    (∀ b : String, PostModel.resolveSortBy b ∈ PostModel.allowedSortFields) := by
  refine ⟨?_, ?_, ?_⟩
  · intro s q b hq hb
    have hc : PostModel.allowedSortFields.contains b = false := by
      cases hcb : PostModel.allowedSortFields.contains b with
      | false => rfl
      | true => exact absurd (List.elem_iff.mp hcb) hb
    have h1 : PostModel.resolveSortBy b = "created_at" := by
      unfold PostModel.resolveSortBy
      rw [hc]
      rfl
    refine ⟨?_, h1⟩
    show PostModel.getFeedPosts q s = _
    unfold PostModel.getFeedPosts
    dsimp only
    rw [hq]
    simp only [Option.getD_some, h1]
    rfl
  · intro s q o ho hno
    have horder : PostModel.resolveSortOrder (q.sortOrder.getD "desc") = "DESC" := by
      rw [ho]
      unfold PostModel.resolveSortOrder
      simp [hno]
    unfold PostModel.getFeedPosts
    dsimp only
    rw [horder]
    apply List.Pairwise.sublist (List.take_sublist _ _)
    apply List.Pairwise.sublist (List.drop_sublist _ _)
    exact PostModel.sortPosts_pairwise _
      (PostModel.feedLe_desc_total _)
      (PostModel.feedLe_desc_trans _) _
  · intro b
    unfold PostModel.resolveSortBy
    by_cases h : PostModel.allowedSortFields.contains b = true
    · rw [if_pos h]
      exact List.elem_iff.mp h
    · rw [if_neg h]
      decide

/-- Witness for C7 at concrete inputs. -/
theorem c7_sort_whitelist_fallback_witness :
    PostModel.getFeedPosts c7Query sampleStore =
      PostModel.getFeedPosts { c7Query with sortBy := some "created_at" } sampleStore ∧
    ((PostModel.getFeedPosts c7Query sampleStore).1).Pairwise
      (fun a b => PostModel.feedLe
        (PostModel.resolveSortBy (c7Query.sortBy.getD "created_at"))
        "DESC" a b = true) ∧
    PostModel.resolveSortBy "x; DROP TABLE posts" ∈ PostModel.allowedSortFields :=
  ⟨(c7_sort_whitelist_fallback.1 sampleStore c7Query "x; DROP TABLE posts" rfl
      (by decide)).1,
   c7_sort_whitelist_fallback.2.1 sampleStore c7Query "sideways" rfl (by decide),
   c7_sort_whitelist_fallback.2.2 "x; DROP TABLE posts"⟩

namespace CommentController

lemma threadStep_fst_extends (ids : List String)
    (acc : List String × (String → List String)) (c : CommentRow) (x : String)
    (hx : x ∈ acc.1) : x ∈ (threadStep ids acc c).1 := by
  cases hpc : c.parent_comment_id with
  | none =>
    simp only [threadStep, hpc]
    exact List.mem_append_left _ hx
  | some p =>
    by_cases hcond : (p != "" && ids.contains p) = true
    · simp only [threadStep, hpc, if_pos hcond]
      exact hx
    · simp only [threadStep, hpc, if_neg hcond]
      exact List.mem_append_left _ hx

lemma threadStep_snd_extends (ids : List String)
    (acc : List String × (String → List String)) (c : CommentRow) (q x : String)
    (hx : x ∈ acc.2 q) : x ∈ (threadStep ids acc c).2 q := by
  cases hpc : c.parent_comment_id with
  | none =>
    simp only [threadStep, hpc]
    exact hx
  | some p =>
    by_cases hcond : (p != "" && ids.contains p) = true
    · simp only [threadStep, hpc, if_pos hcond]
      by_cases hpq : (q == p) = true
      · rw [if_pos hpq]
        exact List.mem_append_left _ hx
      · rw [if_neg hpq]
        exact hx
    · simp only [threadStep, hpc, if_neg hcond]
      exact hx

lemma threadFold_roots_mono (ids : List String) (cs : List CommentRow)
    (acc : List String × (String → List String)) (x : String) (hx : x ∈ acc.1) :
    x ∈ (cs.foldl (threadStep ids) acc).1 := by
  induction cs generalizing acc with
  | nil => exact hx
  | cons c cs ih =>
    rw [List.foldl_cons]
    exact ih _ (threadStep_fst_extends ids acc c x hx)

lemma threadFold_replies_mono (ids : List String) (cs : List CommentRow)
    (acc : List String × (String → List String)) (q x : String)
    (hx : x ∈ acc.2 q) :
    x ∈ (cs.foldl (threadStep ids) acc).2 q := by
  induction cs generalizing acc with
  | nil => exact hx
  | cons c cs ih =>
    rw [List.foldl_cons]
    exact ih _ (threadStep_snd_extends ids acc c q x hx)

lemma threadFold_mem (ids : List String) (cs : List CommentRow)
    (acc : List String × (String → List String)) (c : CommentRow) (hc : c ∈ cs) :
    ((c.parent_comment_id = none ∨
      ∃ p, c.parent_comment_id = some p ∧ (p = "" ∨ ids.contains p = false)) →
      c.comment_id ∈ (cs.foldl (threadStep ids) acc).1) ∧
    (∀ p, c.parent_comment_id = some p → p ≠ "" → ids.contains p = true →
      c.comment_id ∈ (cs.foldl (threadStep ids) acc).2 p) := by
  induction cs generalizing acc with
  | nil => cases hc
  | cons d cs ih =>
    rcases List.mem_cons.mp hc with rfl | hcs
    · constructor
      · intro hroot
        rw [List.foldl_cons]
        apply threadFold_roots_mono
        rcases hroot with hnone | ⟨p, hp, hbad⟩
        · simp [threadStep, hnone]
        · rcases hbad with rfl | hnc
          · simp [threadStep, hp]
          · have hpnotin : p ∉ ids := by simpa using hnc
            simp [threadStep, hp, hpnotin]
      · intro p hp hne hmem
        rw [List.foldl_cons]
        apply threadFold_replies_mono
        have hin : p ∈ ids := List.elem_iff.mp hmem
        simp [threadStep, hp, hne, hin]
    · rw [List.foldl_cons]
      exact ih _ hcs

end CommentController

/-- C8.  Orphan promotion: in any flat comment list (with the comment ids
nonempty strings, as database primary keys are), every comment whose parent id
is null or names an id absent from the list lands in the root array, and
every comment whose parent is present lands in that parent's replies array —
no comment is dropped. -/
theorem c8_orphan_promotion (cs : List CommentRow)
    (hne : ∀ c ∈ cs, c.comment_id ≠ "") :
    ∀ c ∈ cs,
      ((c.parent_comment_id = none ∨
        ∃ p, c.parent_comment_id = some p ∧
          p ∉ cs.map CommentRow.comment_id) →
        c.comment_id ∈ (CommentController.processCommentThreads cs).rootIds) ∧
      (∀ p, c.parent_comment_id = some p → p ∈ cs.map CommentRow.comment_id →
        c.comment_id ∈ (CommentController.processCommentThreads cs).repliesOf p) := by
  intro c hc
  have h := CommentController.threadFold_mem (cs.map fun c => c.comment_id) cs
    ([], fun _ => []) c hc
  constructor
  · intro hroot
    apply h.1
    rcases hroot with hnone | ⟨p, hp, hpnot⟩
    · exact Or.inl hnone
    · refine Or.inr ⟨p, hp, Or.inr ?_⟩
      cases hcb : (cs.map fun c => c.comment_id).contains p with
      | false => rfl
      | true => exact absurd (List.elem_iff.mp hcb) (by simpa using hpnot)
  · intro p hp hpmem
    have hpne : p ≠ "" := by
      rcases List.mem_map.mp hpmem with ⟨d, hd, hdp⟩
      rw [← hdp]
      exact hne d hd
    apply h.2 p hp hpne
    exact List.elem_iff.mpr (by simpa using hpmem)

/-- Witness for C8 at a concrete list: the orphan becomes a root, the child
lands in its parent's replies. -/
theorem c8_orphan_promotion_witness :
    "c" ∈ (CommentController.processCommentThreads c8List).rootIds ∧
    "b" ∈ (CommentController.processCommentThreads c8List).repliesOf "a" := by
  exact ⟨(c8_orphan_promotion c8List (by decide) c8Orphan (by decide)).1
            (Or.inr ⟨"zz", rfl, by decide⟩),
         (c8_orphan_promotion c8List (by decide) c8Child (by decide)).2 "a" rfl
            (by decide)⟩

/-- Witness for C10 at concrete anonymous rows. -/
theorem c10_anonymity_noninterference_witness :
    (PostController.getFeedProcessPost anonPost).author_username = none ∧
    (CommentController.toCommentResponse
      (CommentController.getPostCommentsProcessComment anonComment)).author_username = none :=
  ⟨(c10_anonymity_noninterference.1 anonPost rfl).1,
   (c10_anonymity_noninterference.2.2.1 anonComment rfl).2.1⟩

lemma countP_split {α : Type} (l : List α) (p q : α → Bool) :
    l.countP p = (l.filter q).countP p + (l.filter fun a => !q a).countP p := by
  induction l with
  | nil => rfl
  | cons a l ih =>
    by_cases hq : q a = true <;> by_cases hp : p a = true <;>
      simp [List.countP_cons, List.filter_cons, hq, hp, ih] <;> omega

lemma countP_congr_list {α : Type} (l : List α) (p q : α → Bool)
    (h : ∀ a ∈ l, p a = q a) : l.countP p = l.countP q := by
  induction l with
  | nil => rfl
  | cons a l ih =>
    simp [List.countP_cons, h a (List.mem_cons_self a l),
      ih fun b hb => h b (List.mem_cons_of_mem a hb)]

namespace PostModel

lemma findVote_eq_none (pid uid : String) (V : List PostVote)
    (h : findVote pid uid V = none) :
    V.filter (fun v => v.post_id == pid && v.user_id == uid) = [] := by
  unfold findVote at h
  cases hf : V.filter (fun v => v.post_id == pid && v.user_id == uid) with
  | nil => rfl
  | cons v t => rw [hf] at h; simp at h

lemma findVote_eq_some (pid uid ev : String) (V : List PostVote)
    (hpw : V.Pairwise fun a b => ¬(a.post_id = b.post_id ∧ a.user_id = b.user_id))
    (h : findVote pid uid V = some ev) :
    ∃ v0 : PostVote,
      V.filter (fun v => v.post_id == pid && v.user_id == uid) = [v0] ∧
      v0.vote_type = ev ∧ v0.post_id = pid ∧ v0.user_id = uid := by
  unfold findVote at h
  cases hf : V.filter (fun v => v.post_id == pid && v.user_id == uid) with
  | nil => rw [hf] at h; simp at h
  | cons v0 t =>
    rw [hf] at h
    simp only [List.head?_cons, Option.map_some] at h
    have hkey : ∀ x ∈ v0 :: t, x.post_id = pid ∧ x.user_id = uid := by
      intro x hx
      have hxf : x ∈ V.filter (fun v => v.post_id == pid && v.user_id == uid) := by
        rw [hf]; exact hx
    -- decode the Bool conjunction
      have := (List.mem_filter.mp hxf).2
      simp only [Bool.and_eq_true, beq_iff_eq] at this
      exact this
    have hpwf : (V.filter (fun v => v.post_id == pid && v.user_id == uid)).Pairwise
        (fun a b => ¬(a.post_id = b.post_id ∧ a.user_id = b.user_id)) :=
      hpw.filter _
    rw [hf, List.pairwise_cons] at hpwf
    have ht : t = [] := by
      cases ht : t with
      | nil => rfl
      | cons x t2 =>
        exfalso
        have hx : x ∈ v0 :: t := by rw [ht]; exact List.mem_cons_of_mem _ (List.mem_cons_self _ _)
        have h0 := hkey v0 (List.mem_cons_self _ _)
        have h1 := hkey x hx
        exact hpwf.1 x (by rw [ht]; exact List.mem_cons_self _ _)
          ⟨h0.1.trans h1.1.symm, h0.2.trans h1.2.symm⟩
    subst ht
    have h0 := hkey v0 (List.mem_cons_self _ _)
    exact ⟨v0, rfl, by injection h, h0.1, h0.2⟩

lemma postCount_key_split (pid uid : String) (V : List PostVote) (v0 : PostVote)
    (hf : V.filter (fun v => v.post_id == pid && v.user_id == uid) = [v0])
    (p : PostVote → Bool) :
    V.countP p =
      (if p v0 then 1 else 0) +
      (V.filter (fun v => !(v.post_id == pid && v.user_id == uid))).countP p := by
  rw [countP_split V p (fun v => v.post_id == pid && v.user_id == uid), hf]
  simp [List.countP_cons]

lemma countP_map_keyed (pid uid vt : String) (V : List PostVote) (v0 : PostVote)
    (hf : V.filter (fun v => v.post_id == pid && v.user_id == uid) = [v0])
    (p : PostVote → Bool) :
    (V.map (fun v => if v.post_id == pid && v.user_id == uid then
        { v with vote_type := vt } else v)).countP p =
      (if p { v0 with vote_type := vt } then 1 else 0) +
      (V.filter (fun v => !(v.post_id == pid && v.user_id == uid))).countP p := by
  rw [List.countP_map]
  rw [countP_split _ _ (fun v => v.post_id == pid && v.user_id == uid), hf]
  have hv0key : (v0.post_id == pid && v0.user_id == uid) = true := by
    have : v0 ∈ V.filter (fun v => v.post_id == pid && v.user_id == uid) := by
      rw [hf]; exact List.mem_cons_self _ _
    exact (List.mem_filter.mp this).2
  have hprop : v0.post_id = pid ∧ v0.user_id = uid := by simpa using hv0key
  have h1 : ([v0].countP fun v =>
      (p ∘ fun v => if v.post_id == pid && v.user_id == uid then
        { v with vote_type := vt } else v) v) =
      (if p { v0 with vote_type := vt } then 1 else 0) := by
    simp [List.countP_cons, Function.comp, hv0key, hprop.1, hprop.2]
  have h2 : ((V.filter (fun v => !(v.post_id == pid && v.user_id == uid))).countP
      fun v => (p ∘ fun v => if v.post_id == pid && v.user_id == uid then
        { v with vote_type := vt } else v) v) =
      (V.filter (fun v => !(v.post_id == pid && v.user_id == uid))).countP p := by
    apply countP_congr_list
    intro a ha
    have hk := (List.mem_filter.mp ha).2
    have hk2 : (a.post_id == pid && a.user_id == uid) = false := by
      cases hx : (a.post_id == pid && a.user_id == uid) with
      | false => rfl
      | true => rw [hx] at hk; cases hk
    simp [Function.comp, hk2]
  rw [← h1, ← h2]

lemma postUpCount_append (V : List PostVote) (x : PostVote) (r : String) :
    postUpCount (V ++ [x]) r =
      postUpCount V r + (if x.post_id == r && x.vote_type == "up" then 1 else 0) := by
  unfold postUpCount
  rw [List.countP_append]
  simp [List.countP_cons]

lemma postDownCount_append (V : List PostVote) (x : PostVote) (r : String) :
    postDownCount (V ++ [x]) r =
      postDownCount V r + (if x.post_id == r && x.vote_type == "down" then 1 else 0) := by
  unfold postDownCount
  rw [List.countP_append]
  simp [List.countP_cons]

lemma postUpCount_removeKey (pid uid : String) (V : List PostVote) (v0 : PostVote)
    (hf : V.filter (fun v => v.post_id == pid && v.user_id == uid) = [v0]) (r : String) :
    postUpCount V r =
      (if v0.post_id == r && v0.vote_type == "up" then 1 else 0) +
      postUpCount (V.filter (fun v => !(v.post_id == pid && v.user_id == uid))) r :=
  postCount_key_split pid uid V v0 hf _

lemma postDownCount_removeKey (pid uid : String) (V : List PostVote) (v0 : PostVote)
    (hf : V.filter (fun v => v.post_id == pid && v.user_id == uid) = [v0]) (r : String) :
    postDownCount V r =
      (if v0.post_id == r && v0.vote_type == "down" then 1 else 0) +
      postDownCount (V.filter (fun v => !(v.post_id == pid && v.user_id == uid))) r :=
  postCount_key_split pid uid V v0 hf _

lemma postUpCount_mapKey (pid uid vt : String) (V : List PostVote) (v0 : PostVote)
    (hf : V.filter (fun v => v.post_id == pid && v.user_id == uid) = [v0]) (r : String) :
    postUpCount (V.map (fun v => if v.post_id == pid && v.user_id == uid then
        { v with vote_type := vt } else v)) r =
      (if v0.post_id == r && vt == "up" then 1 else 0) +
      postUpCount (V.filter (fun v => !(v.post_id == pid && v.user_id == uid))) r :=
  countP_map_keyed pid uid vt V v0 hf _

lemma postDownCount_mapKey (pid uid vt : String) (V : List PostVote) (v0 : PostVote)
    (hf : V.filter (fun v => v.post_id == pid && v.user_id == uid) = [v0]) (r : String) :
    postDownCount (V.map (fun v => if v.post_id == pid && v.user_id == uid then
        { v with vote_type := vt } else v)) r =
      (if v0.post_id == r && vt == "down" then 1 else 0) +
      postDownCount (V.filter (fun v => !(v.post_id == pid && v.user_id == uid))) r :=
  countP_map_keyed pid uid vt V v0 hf _

lemma postVoteBranch_insert_up (pid uid : String) (s : Store)
    (hfind : findVote pid uid s.post_votes = none) :
    postVoteBranch pid uid "up" s =
      { s with post_votes := s.post_votes ++ [⟨pid, uid, "up"⟩],
               posts := updatePostsWhere pid
                 (fun p => { p with upvotes := p.upvotes + 1 }) s.posts } := by
  unfold postVoteBranch; rw [hfind]; rfl

lemma postVoteBranch_insert_down (pid uid : String) (s : Store)
    (hfind : findVote pid uid s.post_votes = none) :
    postVoteBranch pid uid "down" s =
      { s with post_votes := s.post_votes ++ [⟨pid, uid, "down"⟩],
               posts := updatePostsWhere pid
                 (fun p => { p with downvotes := p.downvotes + 1 }) s.posts } := by
  unfold postVoteBranch; rw [hfind]; rfl

lemma postVoteBranch_toggle_up (pid uid : String) (s : Store)
    (hfind : findVote pid uid s.post_votes = some "up") :
    postVoteBranch pid uid "up" s =
      { s with post_votes := s.post_votes.filter
                 (fun v => !(v.post_id == pid && v.user_id == uid)),
               posts := updatePostsWhere pid
                 (fun p => { p with upvotes := p.upvotes - 1 }) s.posts } := by
  unfold postVoteBranch; rw [hfind]; rfl

lemma postVoteBranch_toggle_down (pid uid : String) (s : Store)
    (hfind : findVote pid uid s.post_votes = some "down") :
    postVoteBranch pid uid "down" s =
      { s with post_votes := s.post_votes.filter
                 (fun v => !(v.post_id == pid && v.user_id == uid)),
               posts := updatePostsWhere pid
                 (fun p => { p with downvotes := p.downvotes - 1 }) s.posts } := by
  unfold postVoteBranch; rw [hfind]; rfl

lemma postVoteBranch_switch_up (pid uid : String) (s : Store)
    (hfind : findVote pid uid s.post_votes = some "down") :
    postVoteBranch pid uid "up" s =
      { s with post_votes := s.post_votes.map
                 (fun v => if v.post_id == pid && v.user_id == uid then
                   { v with vote_type := "up" } else v),
               posts := updatePostsWhere pid
                 (fun p => { p with upvotes := p.upvotes + 1,
                                    downvotes := p.downvotes - 1 }) s.posts } := by
  unfold postVoteBranch; rw [hfind]; rfl

lemma postVoteBranch_switch_down (pid uid : String) (s : Store)
    (hfind : findVote pid uid s.post_votes = some "up") :
    postVoteBranch pid uid "down" s =
      { s with post_votes := s.post_votes.map
                 (fun v => if v.post_id == pid && v.user_id == uid then
                   { v with vote_type := "down" } else v),
               posts := updatePostsWhere pid
                 (fun p => { p with upvotes := p.upvotes - 1,
                                    downvotes := p.downvotes + 1 }) s.posts } := by
  unfold postVoteBranch; rw [hfind]; rfl

lemma postVoteBranch_consistent (pid uid vt : String) (s : Store)
    (hvt : vt = "up" ∨ vt = "down")
    (hc : postLedgerConsistent s.posts s.post_votes) :
    postLedgerConsistent (postVoteBranch pid uid vt s).posts
      (postVoteBranch pid uid vt s).post_votes := by
  obtain ⟨hcount, hpw, htype⟩ := hc
  cases hfind : findVote pid uid s.post_votes with
  | none =>
    have hnil := findVote_eq_none pid uid s.post_votes hfind
    have hnotin : ∀ a ∈ s.post_votes, ¬(a.post_id = pid ∧ a.user_id = uid) := by
      intro a ha hcontra
      have hfa := List.filter_eq_nil_iff.mp hnil a ha
      apply hfa
      simp [hcontra.1, hcontra.2]
    rcases hvt with rfl | rfl
    · rw [postVoteBranch_insert_up pid uid s hfind]
      refine ⟨?_, ?_, ?_⟩
      · intro p' hp'
        unfold updatePostsWhere at hp'
        obtain ⟨p, hp, rfl⟩ := List.mem_map.mp hp'
        obtain ⟨hu, hd⟩ := hcount p hp
        by_cases hpid : (p.post_id == pid) = true
        · have hpe : p.post_id = pid := by simpa using hpid
          subst hpe
          rw [if_pos hpid]
          constructor
          · show p.upvotes + 1 =
              (postUpCount (s.post_votes ++ [⟨p.post_id, uid, "up"⟩]) p.post_id : Int)
            rw [postUpCount_append, hu]
            simp
          · show p.downvotes =
              (postDownCount (s.post_votes ++ [⟨p.post_id, uid, "up"⟩]) p.post_id : Int)
            rw [postDownCount_append, hd]
            simp
        · rw [if_neg hpid]
          have hne : (pid == p.post_id) = false := by
            cases hx : (pid == p.post_id) with
            | false => rfl
            | true =>
              exfalso
              apply hpid
              have : pid = p.post_id := by simpa using hx
              simp [this]
          constructor
          · rw [postUpCount_append, hu]
            simp [hne]
          · rw [postDownCount_append, hd]
            simp [hne]
      · rw [List.pairwise_append]
        refine ⟨hpw, List.pairwise_singleton _ _, ?_⟩
        intro a ha b hb2
        rcases List.mem_singleton.mp hb2 with rfl
        intro hcontra
        exact hnotin a ha ⟨hcontra.1, hcontra.2⟩
      · intro v hv
        rcases List.mem_append.mp hv with h | h
        · exact htype v h
        · rcases List.mem_singleton.mp h with rfl
          exact Or.inl rfl
    · rw [postVoteBranch_insert_down pid uid s hfind]
      refine ⟨?_, ?_, ?_⟩
      · intro p' hp'
        unfold updatePostsWhere at hp'
        obtain ⟨p, hp, rfl⟩ := List.mem_map.mp hp'
        obtain ⟨hu, hd⟩ := hcount p hp
        by_cases hpid : (p.post_id == pid) = true
        · have hpe : p.post_id = pid := by simpa using hpid
          subst hpe
          rw [if_pos hpid]
          constructor
          · show p.upvotes =
              (postUpCount (s.post_votes ++ [⟨p.post_id, uid, "down"⟩]) p.post_id : Int)
            rw [postUpCount_append, hu]
            simp
          · show p.downvotes + 1 =
              (postDownCount (s.post_votes ++ [⟨p.post_id, uid, "down"⟩]) p.post_id : Int)
            rw [postDownCount_append, hd]
            simp
        · rw [if_neg hpid]
          have hne : (pid == p.post_id) = false := by
            cases hx : (pid == p.post_id) with
            | false => rfl
            | true =>
              exfalso
              apply hpid
              have : pid = p.post_id := by simpa using hx
              simp [this]
          constructor
          · rw [postUpCount_append, hu]
            simp [hne]
          · rw [postDownCount_append, hd]
            simp [hne]
      · rw [List.pairwise_append]
        refine ⟨hpw, List.pairwise_singleton _ _, ?_⟩
        intro a ha b hb2
        rcases List.mem_singleton.mp hb2 with rfl
        intro hcontra
        exact hnotin a ha ⟨hcontra.1, hcontra.2⟩
      · intro v hv
        rcases List.mem_append.mp hv with h | h
        · exact htype v h
        · rcases List.mem_singleton.mp h with rfl
          exact Or.inr rfl
  | some ev =>
    obtain ⟨v0, hf, hv0t, hv0p, hv0u⟩ :=
      findVote_eq_some pid uid ev s.post_votes hpw hfind
    have hv0mem : v0 ∈ s.post_votes := by
      have hmf : v0 ∈ s.post_votes.filter
          (fun v => v.post_id == pid && v.user_id == uid) := by
        rw [hf]; exact List.mem_cons_self _ _
      exact (List.mem_filter.mp hmf).1
    have hevtype : ev = "up" ∨ ev = "down" := hv0t ▸ htype v0 hv0mem
    have hpwf : (s.post_votes.filter
        (fun v => !(v.post_id == pid && v.user_id == uid))).Pairwise
        (fun a b => ¬(a.post_id = b.post_id ∧ a.user_id = b.user_id)) := hpw.filter _
    have htypef : ∀ v ∈ s.post_votes.filter
        (fun v => !(v.post_id == pid && v.user_id == uid)),
        v.vote_type = "up" ∨ v.vote_type = "down" := by
      intro v hv
      exact htype v (List.mem_filter.mp hv).1
    rcases hvt with rfl | rfl
    · rcases hevtype with hevu | hevd
      · subst hevu
        rw [postVoteBranch_toggle_up pid uid s hfind]
        refine ⟨?_, hpwf, htypef⟩
        intro p' hp'
        unfold updatePostsWhere at hp'
        obtain ⟨p, hp, rfl⟩ := List.mem_map.mp hp'
        obtain ⟨hu, hd⟩ := hcount p hp
        by_cases hpid : (p.post_id == pid) = true
        · have hpe : p.post_id = pid := by simpa using hpid
          subst hpe
          rw [if_pos hpid]
          constructor
          · show p.upvotes - 1 = (postUpCount (s.post_votes.filter
              (fun v => !(v.post_id == p.post_id && v.user_id == uid))) p.post_id : Int)
            rw [hu, postUpCount_removeKey p.post_id uid s.post_votes v0 hf]
            simp [hv0p, hv0t]
          · show p.downvotes = (postDownCount (s.post_votes.filter
              (fun v => !(v.post_id == p.post_id && v.user_id == uid))) p.post_id : Int)
            rw [hd, postDownCount_removeKey p.post_id uid s.post_votes v0 hf]
            simp [hv0t]
        · rw [if_neg hpid]
          have hne : (v0.post_id == p.post_id) = false := by
            cases hx : (v0.post_id == p.post_id) with
            | false => rfl
            | true =>
              exfalso
              apply hpid
              have hx2 : v0.post_id = p.post_id := by simpa using hx
              simp [← hx2, hv0p]
          constructor
          · rw [hu, postUpCount_removeKey pid uid s.post_votes v0 hf]
            simp [hne]
          · rw [hd, postDownCount_removeKey pid uid s.post_votes v0 hf]
            simp [hne]
      · subst hevd
        rw [postVoteBranch_switch_up pid uid s hfind]
        refine ⟨?_, ?_, ?_⟩
        · intro p' hp'
          unfold updatePostsWhere at hp'
          obtain ⟨p, hp, rfl⟩ := List.mem_map.mp hp'
          obtain ⟨hu, hd⟩ := hcount p hp
          by_cases hpid : (p.post_id == pid) = true
          · have hpe : p.post_id = pid := by simpa using hpid
            subst hpe
            rw [if_pos hpid]
            constructor
            · show p.upvotes + 1 = (postUpCount (s.post_votes.map
                (fun v => if v.post_id == p.post_id && v.user_id == uid then
                  { v with vote_type := "up" } else v)) p.post_id : Int)
              rw [hu, postUpCount_removeKey p.post_id uid s.post_votes v0 hf,
                postUpCount_mapKey p.post_id uid "up" s.post_votes v0 hf]
              simp [hv0p, hv0t]
              omega
            · show p.downvotes - 1 = (postDownCount (s.post_votes.map
                (fun v => if v.post_id == p.post_id && v.user_id == uid then
                  { v with vote_type := "up" } else v)) p.post_id : Int)
              rw [hd, postDownCount_removeKey p.post_id uid s.post_votes v0 hf,
                postDownCount_mapKey p.post_id uid "up" s.post_votes v0 hf]
              simp [hv0p, hv0t]
          · rw [if_neg hpid]
            have hne : (v0.post_id == p.post_id) = false := by
              cases hx : (v0.post_id == p.post_id) with
              | false => rfl
              | true =>
                exfalso
                apply hpid
                have hx2 : v0.post_id = p.post_id := by simpa using hx
                simp [← hx2, hv0p]
            constructor
            · rw [hu, postUpCount_removeKey pid uid s.post_votes v0 hf,
                postUpCount_mapKey pid uid "up" s.post_votes v0 hf]
              simp [hne]
            · rw [hd, postDownCount_removeKey pid uid s.post_votes v0 hf,
                postDownCount_mapKey pid uid "up" s.post_votes v0 hf]
              simp [hne]
        · rw [List.pairwise_map]
          refine hpw.imp ?_
          intro a b hr hcontra
          apply hr
          constructor
          · have h1 : ∀ x : PostVote,
                ((if x.post_id == pid && x.user_id == uid then
                  { x with vote_type := "up" } else x) : PostVote).post_id = x.post_id := by
              intro x; split <;> rfl
            rw [← h1 a, ← h1 b]; exact hcontra.1
          · have h2 : ∀ x : PostVote,
                ((if x.post_id == pid && x.user_id == uid then
                  { x with vote_type := "up" } else x) : PostVote).user_id = x.user_id := by
              intro x; split <;> rfl
            rw [← h2 a, ← h2 b]; exact hcontra.2
        · intro v hv
          obtain ⟨a, ha, rfl⟩ := List.mem_map.mp hv
          by_cases hk : (a.post_id == pid && a.user_id == uid) = true
          · rw [if_pos hk]
            exact Or.inl rfl
          · rw [if_neg hk]
            exact htype a ha
    · rcases hevtype with hevu | hevd
      · subst hevu
        rw [postVoteBranch_switch_down pid uid s hfind]
        refine ⟨?_, ?_, ?_⟩
        · intro p' hp'
          unfold updatePostsWhere at hp'
          obtain ⟨p, hp, rfl⟩ := List.mem_map.mp hp'
          obtain ⟨hu, hd⟩ := hcount p hp
          by_cases hpid : (p.post_id == pid) = true
          · have hpe : p.post_id = pid := by simpa using hpid
            subst hpe
            rw [if_pos hpid]
            constructor
            · show p.upvotes - 1 = (postUpCount (s.post_votes.map
                (fun v => if v.post_id == p.post_id && v.user_id == uid then
                  { v with vote_type := "down" } else v)) p.post_id : Int)
              rw [hu, postUpCount_removeKey p.post_id uid s.post_votes v0 hf,
                postUpCount_mapKey p.post_id uid "down" s.post_votes v0 hf]
              simp [hv0p, hv0t]
            · show p.downvotes + 1 = (postDownCount (s.post_votes.map
                (fun v => if v.post_id == p.post_id && v.user_id == uid then
                  { v with vote_type := "down" } else v)) p.post_id : Int)
              rw [hd, postDownCount_removeKey p.post_id uid s.post_votes v0 hf,
                postDownCount_mapKey p.post_id uid "down" s.post_votes v0 hf]
              simp [hv0p, hv0t]
              omega
          · rw [if_neg hpid]
            have hne : (v0.post_id == p.post_id) = false := by
              cases hx : (v0.post_id == p.post_id) with
              | false => rfl
              | true =>
                exfalso
                apply hpid
                have hx2 : v0.post_id = p.post_id := by simpa using hx
                simp [← hx2, hv0p]
            constructor
            · rw [hu, postUpCount_removeKey pid uid s.post_votes v0 hf,
                postUpCount_mapKey pid uid "down" s.post_votes v0 hf]
              simp [hne]
            · rw [hd, postDownCount_removeKey pid uid s.post_votes v0 hf,
                postDownCount_mapKey pid uid "down" s.post_votes v0 hf]
              simp [hne]
        · rw [List.pairwise_map]
          refine hpw.imp ?_
          intro a b hr hcontra
          apply hr
          constructor
          · have h1 : ∀ x : PostVote,
                ((if x.post_id == pid && x.user_id == uid then
                  { x with vote_type := "down" } else x) : PostVote).post_id = x.post_id := by
              intro x; split <;> rfl
            rw [← h1 a, ← h1 b]; exact hcontra.1
          · have h2 : ∀ x : PostVote,
                ((if x.post_id == pid && x.user_id == uid then
                  { x with vote_type := "down" } else x) : PostVote).user_id = x.user_id := by
              intro x; split <;> rfl
            rw [← h2 a, ← h2 b]; exact hcontra.2
        · intro v hv
          obtain ⟨a, ha, rfl⟩ := List.mem_map.mp hv
          by_cases hk : (a.post_id == pid && a.user_id == uid) = true
          · rw [if_pos hk]
            exact Or.inr rfl
          · rw [if_neg hk]
            exact htype a ha
      · subst hevd
        rw [postVoteBranch_toggle_down pid uid s hfind]
        refine ⟨?_, hpwf, htypef⟩
        intro p' hp'
        unfold updatePostsWhere at hp'
        obtain ⟨p, hp, rfl⟩ := List.mem_map.mp hp'
        obtain ⟨hu, hd⟩ := hcount p hp
        by_cases hpid : (p.post_id == pid) = true
        · have hpe : p.post_id = pid := by simpa using hpid
          subst hpe
          rw [if_pos hpid]
          constructor
          · show p.upvotes = (postUpCount (s.post_votes.filter
              (fun v => !(v.post_id == p.post_id && v.user_id == uid))) p.post_id : Int)
            rw [hu, postUpCount_removeKey p.post_id uid s.post_votes v0 hf]
            simp [hv0t]
          · show p.downvotes - 1 = (postDownCount (s.post_votes.filter
              (fun v => !(v.post_id == p.post_id && v.user_id == uid))) p.post_id : Int)
            rw [hd, postDownCount_removeKey p.post_id uid s.post_votes v0 hf]
            simp [hv0p, hv0t]
        · rw [if_neg hpid]
          have hne : (v0.post_id == p.post_id) = false := by
            cases hx : (v0.post_id == p.post_id) with
            | false => rfl
            | true =>
              exfalso
              apply hpid
              have hx2 : v0.post_id = p.post_id := by simpa using hx
              simp [← hx2, hv0p]
          constructor
          · rw [hu, postUpCount_removeKey pid uid s.post_votes v0 hf]
            simp [hne]
          · rw [hd, postDownCount_removeKey pid uid s.post_votes v0 hf]
            simp [hne]

end PostModel

namespace CommentModel

lemma comment_findVote_eq_none (cid uid : String) (V : List CommentVote)
    (h : findVote cid uid V = none) :
    V.filter (fun v => v.comment_id == cid && v.user_id == uid) = [] := by
  unfold findVote at h
  cases hf : V.filter (fun v => v.comment_id == cid && v.user_id == uid) with
  | nil => rfl
  | cons v t => rw [hf] at h; simp at h

lemma comment_findVote_eq_some (cid uid ev : String) (V : List CommentVote)
    (hpw : V.Pairwise fun a b => ¬(a.comment_id = b.comment_id ∧ a.user_id = b.user_id))
    (h : findVote cid uid V = some ev) :
    ∃ v0 : CommentVote,
      V.filter (fun v => v.comment_id == cid && v.user_id == uid) = [v0] ∧
      v0.vote_type = ev ∧ v0.comment_id = cid ∧ v0.user_id = uid := by
  unfold findVote at h
  cases hf : V.filter (fun v => v.comment_id == cid && v.user_id == uid) with
  | nil => rw [hf] at h; simp at h
  | cons v0 t =>
    rw [hf] at h
    simp only [List.head?_cons, Option.map_some] at h
    have hkey : ∀ x ∈ v0 :: t, x.comment_id = cid ∧ x.user_id = uid := by
      intro x hx
      have hxf : x ∈ V.filter (fun v => v.comment_id == cid && v.user_id == uid) := by
        rw [hf]; exact hx
    -- decode the Bool conjunction
      have := (List.mem_filter.mp hxf).2
      simp only [Bool.and_eq_true, beq_iff_eq] at this
      exact this
    have hpwf : (V.filter (fun v => v.comment_id == cid && v.user_id == uid)).Pairwise
        (fun a b => ¬(a.comment_id = b.comment_id ∧ a.user_id = b.user_id)) :=
      hpw.filter _
    rw [hf, List.pairwise_cons] at hpwf
    have ht : t = [] := by
      cases ht : t with
      | nil => rfl
      | cons x t2 =>
        exfalso
        have hx : x ∈ v0 :: t := by rw [ht]; exact List.mem_cons_of_mem _ (List.mem_cons_self _ _)
        have h0 := hkey v0 (List.mem_cons_self _ _)
        have h1 := hkey x hx
        exact hpwf.1 x (by rw [ht]; exact List.mem_cons_self _ _)
          ⟨h0.1.trans h1.1.symm, h0.2.trans h1.2.symm⟩
    subst ht
    have h0 := hkey v0 (List.mem_cons_self _ _)
    exact ⟨v0, rfl, by injection h, h0.1, h0.2⟩

lemma commentCount_key_split (cid uid : String) (V : List CommentVote) (v0 : CommentVote)
    (hf : V.filter (fun v => v.comment_id == cid && v.user_id == uid) = [v0])
    (p : CommentVote → Bool) :
    V.countP p =
      (if p v0 then 1 else 0) +
      (V.filter (fun v => !(v.comment_id == cid && v.user_id == uid))).countP p := by
  rw [countP_split V p (fun v => v.comment_id == cid && v.user_id == uid), hf]
  simp [List.countP_cons]

lemma comment_countP_map_keyed (cid uid vt : String) (V : List CommentVote) (v0 : CommentVote)
    (hf : V.filter (fun v => v.comment_id == cid && v.user_id == uid) = [v0])
    (p : CommentVote → Bool) :
    (V.map (fun v => if v.comment_id == cid && v.user_id == uid then
        { v with vote_type := vt } else v)).countP p =
      (if p { v0 with vote_type := vt } then 1 else 0) +
      (V.filter (fun v => !(v.comment_id == cid && v.user_id == uid))).countP p := by
  rw [List.countP_map]
  rw [countP_split _ _ (fun v => v.comment_id == cid && v.user_id == uid), hf]
  have hv0key : (v0.comment_id == cid && v0.user_id == uid) = true := by
    have : v0 ∈ V.filter (fun v => v.comment_id == cid && v.user_id == uid) := by
      rw [hf]; exact List.mem_cons_self _ _
    exact (List.mem_filter.mp this).2
  have hprop : v0.comment_id = cid ∧ v0.user_id = uid := by simpa using hv0key
  have h1 : ([v0].countP fun v =>
      (p ∘ fun v => if v.comment_id == cid && v.user_id == uid then
        { v with vote_type := vt } else v) v) =
      (if p { v0 with vote_type := vt } then 1 else 0) := by
    simp [List.countP_cons, Function.comp, hv0key, hprop.1, hprop.2]
  have h2 : ((V.filter (fun v => !(v.comment_id == cid && v.user_id == uid))).countP
      fun v => (p ∘ fun v => if v.comment_id == cid && v.user_id == uid then
        { v with vote_type := vt } else v) v) =
      (V.filter (fun v => !(v.comment_id == cid && v.user_id == uid))).countP p := by
    apply countP_congr_list
    intro a ha
    have hk := (List.mem_filter.mp ha).2
    have hk2 : (a.comment_id == cid && a.user_id == uid) = false := by
      cases hx : (a.comment_id == cid && a.user_id == uid) with
      | false => rfl
      | true => rw [hx] at hk; cases hk
    simp [Function.comp, hk2]
  rw [← h1, ← h2]

lemma commentUpCount_append (V : List CommentVote) (x : CommentVote) (r : String) :
    commentUpCount (V ++ [x]) r =
      commentUpCount V r + (if x.comment_id == r && x.vote_type == "up" then 1 else 0) := by
  unfold commentUpCount
  rw [List.countP_append]
  simp [List.countP_cons]

lemma commentDownCount_append (V : List CommentVote) (x : CommentVote) (r : String) :
    commentDownCount (V ++ [x]) r =
      commentDownCount V r + (if x.comment_id == r && x.vote_type == "down" then 1 else 0) := by
  unfold commentDownCount
  rw [List.countP_append]
  simp [List.countP_cons]

lemma commentUpCount_removeKey (cid uid : String) (V : List CommentVote) (v0 : CommentVote)
    (hf : V.filter (fun v => v.comment_id == cid && v.user_id == uid) = [v0]) (r : String) :
    commentUpCount V r =
      (if v0.comment_id == r && v0.vote_type == "up" then 1 else 0) +
      commentUpCount (V.filter (fun v => !(v.comment_id == cid && v.user_id == uid))) r :=
  commentCount_key_split cid uid V v0 hf _

lemma commentDownCount_removeKey (cid uid : String) (V : List CommentVote) (v0 : CommentVote)
    (hf : V.filter (fun v => v.comment_id == cid && v.user_id == uid) = [v0]) (r : String) :
    commentDownCount V r =
      (if v0.comment_id == r && v0.vote_type == "down" then 1 else 0) +
      commentDownCount (V.filter (fun v => !(v.comment_id == cid && v.user_id == uid))) r :=
  commentCount_key_split cid uid V v0 hf _

lemma commentUpCount_mapKey (cid uid vt : String) (V : List CommentVote) (v0 : CommentVote)
    (hf : V.filter (fun v => v.comment_id == cid && v.user_id == uid) = [v0]) (r : String) :
    commentUpCount (V.map (fun v => if v.comment_id == cid && v.user_id == uid then
        { v with vote_type := vt } else v)) r =
      (if v0.comment_id == r && vt == "up" then 1 else 0) +
      commentUpCount (V.filter (fun v => !(v.comment_id == cid && v.user_id == uid))) r :=
  comment_countP_map_keyed cid uid vt V v0 hf _

lemma commentDownCount_mapKey (cid uid vt : String) (V : List CommentVote) (v0 : CommentVote)
    (hf : V.filter (fun v => v.comment_id == cid && v.user_id == uid) = [v0]) (r : String) :
    commentDownCount (V.map (fun v => if v.comment_id == cid && v.user_id == uid then
        { v with vote_type := vt } else v)) r =
      (if v0.comment_id == r && vt == "down" then 1 else 0) +
      commentDownCount (V.filter (fun v => !(v.comment_id == cid && v.user_id == uid))) r :=
  comment_countP_map_keyed cid uid vt V v0 hf _

lemma commentVoteBranch_insert_up (cid uid : String) (s : Store)
    (hfind : findVote cid uid s.comment_votes = none) :
    commentVoteBranch cid uid "up" s =
      { s with comment_votes := s.comment_votes ++ [⟨cid, uid, "up"⟩],
               comments := updateCommentsWhere cid
                 (fun p => { p with upvotes := p.upvotes + 1 }) s.comments } := by
  unfold commentVoteBranch; rw [hfind]; rfl

lemma commentVoteBranch_insert_down (cid uid : String) (s : Store)
    (hfind : findVote cid uid s.comment_votes = none) :
    commentVoteBranch cid uid "down" s =
      { s with comment_votes := s.comment_votes ++ [⟨cid, uid, "down"⟩],
               comments := updateCommentsWhere cid
                 (fun p => { p with downvotes := p.downvotes + 1 }) s.comments } := by
  unfold commentVoteBranch; rw [hfind]; rfl

lemma commentVoteBranch_toggle_up (cid uid : String) (s : Store)
    (hfind : findVote cid uid s.comment_votes = some "up") :
    commentVoteBranch cid uid "up" s =
      { s with comment_votes := s.comment_votes.filter
                 (fun v => !(v.comment_id == cid && v.user_id == uid)),
               comments := updateCommentsWhere cid
                 (fun p => { p with upvotes := p.upvotes - 1 }) s.comments } := by
  unfold commentVoteBranch; rw [hfind]; rfl

lemma commentVoteBranch_toggle_down (cid uid : String) (s : Store)
    (hfind : findVote cid uid s.comment_votes = some "down") :
    commentVoteBranch cid uid "down" s =
      { s with comment_votes := s.comment_votes.filter
                 (fun v => !(v.comment_id == cid && v.user_id == uid)),
               comments := updateCommentsWhere cid
                 (fun p => { p with downvotes := p.downvotes - 1 }) s.comments } := by
  unfold commentVoteBranch; rw [hfind]; rfl

lemma commentVoteBranch_switch_up (cid uid : String) (s : Store)
    (hfind : findVote cid uid s.comment_votes = some "down") :
    commentVoteBranch cid uid "up" s =
      { s with comment_votes := s.comment_votes.map
                 (fun v => if v.comment_id == cid && v.user_id == uid then
                   { v with vote_type := "up" } else v),
               comments := updateCommentsWhere cid
                 (fun p => { p with upvotes := p.upvotes + 1,
                                    downvotes := p.downvotes - 1 }) s.comments } := by
  unfold commentVoteBranch; rw [hfind]; rfl

lemma commentVoteBranch_switch_down (cid uid : String) (s : Store)
    (hfind : findVote cid uid s.comment_votes = some "up") :
    commentVoteBranch cid uid "down" s =
      { s with comment_votes := s.comment_votes.map
                 (fun v => if v.comment_id == cid && v.user_id == uid then
                   { v with vote_type := "down" } else v),
               comments := updateCommentsWhere cid
                 (fun p => { p with upvotes := p.upvotes - 1,
                                    downvotes := p.downvotes + 1 }) s.comments } := by
  unfold commentVoteBranch; rw [hfind]; rfl

lemma commentVoteBranch_consistent (cid uid vt : String) (s : Store)
    (hvt : vt = "up" ∨ vt = "down")
    (hc : commentLedgerConsistent s.comments s.comment_votes) :
    commentLedgerConsistent (commentVoteBranch cid uid vt s).comments
      (commentVoteBranch cid uid vt s).comment_votes := by
  obtain ⟨hcount, hpw, htype⟩ := hc
  cases hfind : findVote cid uid s.comment_votes with
  | none =>
    have hnil := comment_findVote_eq_none cid uid s.comment_votes hfind
    have hnotin : ∀ a ∈ s.comment_votes, ¬(a.comment_id = cid ∧ a.user_id = uid) := by
      intro a ha hcontra
      have hfa := List.filter_eq_nil_iff.mp hnil a ha
      apply hfa
      simp [hcontra.1, hcontra.2]
    rcases hvt with rfl | rfl
    · rw [commentVoteBranch_insert_up cid uid s hfind]
      refine ⟨?_, ?_, ?_⟩
      · intro p' hp'
        unfold updateCommentsWhere at hp'
        obtain ⟨p, hp, rfl⟩ := List.mem_map.mp hp'
        obtain ⟨hu, hd⟩ := hcount p hp
        by_cases hpid : (p.comment_id == cid) = true
        · have hpe : p.comment_id = cid := by simpa using hpid
          subst hpe
          rw [if_pos hpid]
          constructor
          · show p.upvotes + 1 =
              (commentUpCount (s.comment_votes ++ [⟨p.comment_id, uid, "up"⟩]) p.comment_id : Int)
            rw [commentUpCount_append, hu]
            simp
          · show p.downvotes =
              (commentDownCount (s.comment_votes ++ [⟨p.comment_id, uid, "up"⟩]) p.comment_id : Int)
            rw [commentDownCount_append, hd]
            simp
        · rw [if_neg hpid]
          have hne : (cid == p.comment_id) = false := by
            cases hx : (cid == p.comment_id) with
            | false => rfl
            | true =>
              exfalso
              apply hpid
              have : cid = p.comment_id := by simpa using hx
              simp [this]
          constructor
          · rw [commentUpCount_append, hu]
            simp [hne]
          · rw [commentDownCount_append, hd]
            simp [hne]
      · rw [List.pairwise_append]
        refine ⟨hpw, List.pairwise_singleton _ _, ?_⟩
        intro a ha b hb2
        rcases List.mem_singleton.mp hb2 with rfl
        intro hcontra
        exact hnotin a ha ⟨hcontra.1, hcontra.2⟩
      · intro v hv
        rcases List.mem_append.mp hv with h | h
        · exact htype v h
        · rcases List.mem_singleton.mp h with rfl
          exact Or.inl rfl
    · rw [commentVoteBranch_insert_down cid uid s hfind]
      refine ⟨?_, ?_, ?_⟩
      · intro p' hp'
        unfold updateCommentsWhere at hp'
        obtain ⟨p, hp, rfl⟩ := List.mem_map.mp hp'
        obtain ⟨hu, hd⟩ := hcount p hp
        by_cases hpid : (p.comment_id == cid) = true
        · have hpe : p.comment_id = cid := by simpa using hpid
          subst hpe
          rw [if_pos hpid]
          constructor
          · show p.upvotes =
              (commentUpCount (s.comment_votes ++ [⟨p.comment_id, uid, "down"⟩]) p.comment_id : Int)
            rw [commentUpCount_append, hu]
            simp
          · show p.downvotes + 1 =
              (commentDownCount (s.comment_votes ++ [⟨p.comment_id, uid, "down"⟩]) p.comment_id : Int)
            rw [commentDownCount_append, hd]
            simp
        · rw [if_neg hpid]
          have hne : (cid == p.comment_id) = false := by
            cases hx : (cid == p.comment_id) with
            | false => rfl
            | true =>
              exfalso
              apply hpid
              have : cid = p.comment_id := by simpa using hx
              simp [this]
          constructor
          · rw [commentUpCount_append, hu]
            simp [hne]
          · rw [commentDownCount_append, hd]
            simp [hne]
      · rw [List.pairwise_append]
        refine ⟨hpw, List.pairwise_singleton _ _, ?_⟩
        intro a ha b hb2
        rcases List.mem_singleton.mp hb2 with rfl
        intro hcontra
        exact hnotin a ha ⟨hcontra.1, hcontra.2⟩
      · intro v hv
        rcases List.mem_append.mp hv with h | h
        · exact htype v h
        · rcases List.mem_singleton.mp h with rfl
          exact Or.inr rfl
  | some ev =>
    obtain ⟨v0, hf, hv0t, hv0p, hv0u⟩ :=
      comment_findVote_eq_some cid uid ev s.comment_votes hpw hfind
    have hv0mem : v0 ∈ s.comment_votes := by
      have hmf : v0 ∈ s.comment_votes.filter
          (fun v => v.comment_id == cid && v.user_id == uid) := by
        rw [hf]; exact List.mem_cons_self _ _
      exact (List.mem_filter.mp hmf).1
    have hevtype : ev = "up" ∨ ev = "down" := hv0t ▸ htype v0 hv0mem
    have hpwf : (s.comment_votes.filter
        (fun v => !(v.comment_id == cid && v.user_id == uid))).Pairwise
        (fun a b => ¬(a.comment_id = b.comment_id ∧ a.user_id = b.user_id)) := hpw.filter _
    have htypef : ∀ v ∈ s.comment_votes.filter
        (fun v => !(v.comment_id == cid && v.user_id == uid)),
        v.vote_type = "up" ∨ v.vote_type = "down" := by
      intro v hv
      exact htype v (List.mem_filter.mp hv).1
    rcases hvt with rfl | rfl
    · rcases hevtype with hevu | hevd
      · subst hevu
        rw [commentVoteBranch_toggle_up cid uid s hfind]
        refine ⟨?_, hpwf, htypef⟩
        intro p' hp'
        unfold updateCommentsWhere at hp'
        obtain ⟨p, hp, rfl⟩ := List.mem_map.mp hp'
        obtain ⟨hu, hd⟩ := hcount p hp
        by_cases hpid : (p.comment_id == cid) = true
        · have hpe : p.comment_id = cid := by simpa using hpid
          subst hpe
          rw [if_pos hpid]
          constructor
          · show p.upvotes - 1 = (commentUpCount (s.comment_votes.filter
              (fun v => !(v.comment_id == p.comment_id && v.user_id == uid))) p.comment_id : Int)
            rw [hu, commentUpCount_removeKey p.comment_id uid s.comment_votes v0 hf]
            simp [hv0p, hv0t]
          · show p.downvotes = (commentDownCount (s.comment_votes.filter
              (fun v => !(v.comment_id == p.comment_id && v.user_id == uid))) p.comment_id : Int)
            rw [hd, commentDownCount_removeKey p.comment_id uid s.comment_votes v0 hf]
            simp [hv0t]
        · rw [if_neg hpid]
          have hne : (v0.comment_id == p.comment_id) = false := by
            cases hx : (v0.comment_id == p.comment_id) with
            | false => rfl
            | true =>
              exfalso
              apply hpid
              have hx2 : v0.comment_id = p.comment_id := by simpa using hx
              simp [← hx2, hv0p]
          constructor
          · rw [hu, commentUpCount_removeKey cid uid s.comment_votes v0 hf]
            simp [hne]
          · rw [hd, commentDownCount_removeKey cid uid s.comment_votes v0 hf]
            simp [hne]
      · subst hevd
        rw [commentVoteBranch_switch_up cid uid s hfind]
        refine ⟨?_, ?_, ?_⟩
        · intro p' hp'
          unfold updateCommentsWhere at hp'
          obtain ⟨p, hp, rfl⟩ := List.mem_map.mp hp'
          obtain ⟨hu, hd⟩ := hcount p hp
          by_cases hpid : (p.comment_id == cid) = true
          · have hpe : p.comment_id = cid := by simpa using hpid
            subst hpe
            rw [if_pos hpid]
            constructor
            · show p.upvotes + 1 = (commentUpCount (s.comment_votes.map
                (fun v => if v.comment_id == p.comment_id && v.user_id == uid then
                  { v with vote_type := "up" } else v)) p.comment_id : Int)
              rw [hu, commentUpCount_removeKey p.comment_id uid s.comment_votes v0 hf,
                commentUpCount_mapKey p.comment_id uid "up" s.comment_votes v0 hf]
              simp [hv0p, hv0t]
              omega
            · show p.downvotes - 1 = (commentDownCount (s.comment_votes.map
                (fun v => if v.comment_id == p.comment_id && v.user_id == uid then
                  { v with vote_type := "up" } else v)) p.comment_id : Int)
              rw [hd, commentDownCount_removeKey p.comment_id uid s.comment_votes v0 hf,
                commentDownCount_mapKey p.comment_id uid "up" s.comment_votes v0 hf]
              simp [hv0p, hv0t]
          · rw [if_neg hpid]
            have hne : (v0.comment_id == p.comment_id) = false := by
              cases hx : (v0.comment_id == p.comment_id) with
              | false => rfl
              | true =>
                exfalso
                apply hpid
                have hx2 : v0.comment_id = p.comment_id := by simpa using hx
                simp [← hx2, hv0p]
            constructor
            · rw [hu, commentUpCount_removeKey cid uid s.comment_votes v0 hf,
                commentUpCount_mapKey cid uid "up" s.comment_votes v0 hf]
              simp [hne]
            · rw [hd, commentDownCount_removeKey cid uid s.comment_votes v0 hf,
                commentDownCount_mapKey cid uid "up" s.comment_votes v0 hf]
              simp [hne]
        · rw [List.pairwise_map]
          refine hpw.imp ?_
          intro a b hr hcontra
          apply hr
          constructor
          · have h1 : ∀ x : CommentVote,
                ((if x.comment_id == cid && x.user_id == uid then
                  { x with vote_type := "up" } else x) : CommentVote).comment_id = x.comment_id := by
              intro x; split <;> rfl
            rw [← h1 a, ← h1 b]; exact hcontra.1
          · have h2 : ∀ x : CommentVote,
                ((if x.comment_id == cid && x.user_id == uid then
                  { x with vote_type := "up" } else x) : CommentVote).user_id = x.user_id := by
              intro x; split <;> rfl
            rw [← h2 a, ← h2 b]; exact hcontra.2
        · intro v hv
          obtain ⟨a, ha, rfl⟩ := List.mem_map.mp hv
          by_cases hk : (a.comment_id == cid && a.user_id == uid) = true
          · rw [if_pos hk]
            exact Or.inl rfl
          · rw [if_neg hk]
            exact htype a ha
    · rcases hevtype with hevu | hevd
      · subst hevu
        rw [commentVoteBranch_switch_down cid uid s hfind]
        refine ⟨?_, ?_, ?_⟩
        · intro p' hp'
          unfold updateCommentsWhere at hp'
          obtain ⟨p, hp, rfl⟩ := List.mem_map.mp hp'
          obtain ⟨hu, hd⟩ := hcount p hp
          by_cases hpid : (p.comment_id == cid) = true
          · have hpe : p.comment_id = cid := by simpa using hpid
            subst hpe
            rw [if_pos hpid]
            constructor
            · show p.upvotes - 1 = (commentUpCount (s.comment_votes.map
                (fun v => if v.comment_id == p.comment_id && v.user_id == uid then
                  { v with vote_type := "down" } else v)) p.comment_id : Int)
              rw [hu, commentUpCount_removeKey p.comment_id uid s.comment_votes v0 hf,
                commentUpCount_mapKey p.comment_id uid "down" s.comment_votes v0 hf]
              simp [hv0p, hv0t]
            · show p.downvotes + 1 = (commentDownCount (s.comment_votes.map
                (fun v => if v.comment_id == p.comment_id && v.user_id == uid then
                  { v with vote_type := "down" } else v)) p.comment_id : Int)
              rw [hd, commentDownCount_removeKey p.comment_id uid s.comment_votes v0 hf,
                commentDownCount_mapKey p.comment_id uid "down" s.comment_votes v0 hf]
              simp [hv0p, hv0t]
              omega
          · rw [if_neg hpid]
            have hne : (v0.comment_id == p.comment_id) = false := by
              cases hx : (v0.comment_id == p.comment_id) with
              | false => rfl
              | true =>
                exfalso
                apply hpid
                have hx2 : v0.comment_id = p.comment_id := by simpa using hx
                simp [← hx2, hv0p]
            constructor
            · rw [hu, commentUpCount_removeKey cid uid s.comment_votes v0 hf,
                commentUpCount_mapKey cid uid "down" s.comment_votes v0 hf]
              simp [hne]
            · rw [hd, commentDownCount_removeKey cid uid s.comment_votes v0 hf,
                commentDownCount_mapKey cid uid "down" s.comment_votes v0 hf]
              simp [hne]
        · rw [List.pairwise_map]
          refine hpw.imp ?_
          intro a b hr hcontra
          apply hr
          constructor
          · have h1 : ∀ x : CommentVote,
                ((if x.comment_id == cid && x.user_id == uid then
                  { x with vote_type := "down" } else x) : CommentVote).comment_id = x.comment_id := by
              intro x; split <;> rfl
            rw [← h1 a, ← h1 b]; exact hcontra.1
          · have h2 : ∀ x : CommentVote,
                ((if x.comment_id == cid && x.user_id == uid then
                  { x with vote_type := "down" } else x) : CommentVote).user_id = x.user_id := by
              intro x; split <;> rfl
            rw [← h2 a, ← h2 b]; exact hcontra.2
        · intro v hv
          obtain ⟨a, ha, rfl⟩ := List.mem_map.mp hv
          by_cases hk : (a.comment_id == cid && a.user_id == uid) = true
          · rw [if_pos hk]
            exact Or.inr rfl
          · rw [if_neg hk]
            exact htype a ha
      · subst hevd
        rw [commentVoteBranch_toggle_down cid uid s hfind]
        refine ⟨?_, hpwf, htypef⟩
        intro p' hp'
        unfold updateCommentsWhere at hp'
        obtain ⟨p, hp, rfl⟩ := List.mem_map.mp hp'
        obtain ⟨hu, hd⟩ := hcount p hp
        by_cases hpid : (p.comment_id == cid) = true
        · have hpe : p.comment_id = cid := by simpa using hpid
          subst hpe
          rw [if_pos hpid]
          constructor
          · show p.upvotes = (commentUpCount (s.comment_votes.filter
              (fun v => !(v.comment_id == p.comment_id && v.user_id == uid))) p.comment_id : Int)
            rw [hu, commentUpCount_removeKey p.comment_id uid s.comment_votes v0 hf]
            simp [hv0t]
          · show p.downvotes - 1 = (commentDownCount (s.comment_votes.filter
              (fun v => !(v.comment_id == p.comment_id && v.user_id == uid))) p.comment_id : Int)
            rw [hd, commentDownCount_removeKey p.comment_id uid s.comment_votes v0 hf]
            simp [hv0p, hv0t]
        · rw [if_neg hpid]
          have hne : (v0.comment_id == p.comment_id) = false := by
            cases hx : (v0.comment_id == p.comment_id) with
            | false => rfl
            | true =>
              exfalso
              apply hpid
              have hx2 : v0.comment_id = p.comment_id := by simpa using hx
              simp [← hx2, hv0p]
          constructor
          · rw [hu, commentUpCount_removeKey cid uid s.comment_votes v0 hf]
            simp [hne]
          · rw [hd, commentDownCount_removeKey cid uid s.comment_votes v0 hf]
            simp [hne]

end CommentModel

lemma applyVoteOp_consistent (op : VoteOp) (hv : validVoteOp op) (s : Store)
    (hc : voteStateConsistent s) : voteStateConsistent (applyVoteOp s op) := by
  cases op with
  | post pid uid vt =>
    constructor
    · show PostModel.postLedgerConsistent (PostModel.voteOnPost pid uid vt s).posts
        (PostModel.voteOnPost pid uid vt s).post_votes
      rw [PostModel.voteOnPost_posts, PostModel.voteOnPost_post_votes]
      exact PostModel.postVoteBranch_consistent pid uid vt s hv hc.1
    · show CommentModel.commentLedgerConsistent
        (PostModel.voteOnPost pid uid vt s).comments
        (PostModel.voteOnPost pid uid vt s).comment_votes
      rw [PostModel.voteOnPost_comments, PostModel.voteOnPost_comment_votes]
      exact hc.2
  | comment cid uid vt =>
    constructor
    · show PostModel.postLedgerConsistent
        (CommentModel.voteOnComment cid uid vt s).posts
        (CommentModel.voteOnComment cid uid vt s).post_votes
      rw [CommentModel.voteOnComment_posts, CommentModel.voteOnComment_post_votes]
      exact hc.1
    · show CommentModel.commentLedgerConsistent
        (CommentModel.voteOnComment cid uid vt s).comments
        (CommentModel.voteOnComment cid uid vt s).comment_votes
      rw [CommentModel.voteOnComment_comments, CommentModel.voteOnComment_comment_votes]
      exact CommentModel.commentVoteBranch_consistent cid uid vt s hv hc.2

/-- C3.  Counter non-negativity: any sequence of valid vote operations applied
to a state satisfying the data-model invariants (counters equal vote-row
counts — initially 0 — plus the documented Vote invariants: at most one row
per (subject, user) and vote_type in up/down) preserves those invariants, and
no post or comment counter is ever negative. -/
theorem c3_counter_non_negativity :
    ∀ (ops : List VoteOp) (s : Store),
      (∀ op ∈ ops, validVoteOp op) → voteStateConsistent s →
      voteStateConsistent (applyVoteOps s ops) ∧
      (∀ p ∈ (applyVoteOps s ops).posts, 0 ≤ p.upvotes ∧ 0 ≤ p.downvotes) ∧
      (∀ c ∈ (applyVoteOps s ops).comments, 0 ≤ c.upvotes ∧ 0 ≤ c.downvotes) := by
  have hmain : ∀ (ops : List VoteOp) (s : Store),
      (∀ op ∈ ops, validVoteOp op) → voteStateConsistent s →
      voteStateConsistent (applyVoteOps s ops) := by
    intro ops
    induction ops with
    | nil => intro s _ hc; exact hc
    | cons op ops ih =>
      intro s hall hc
      show voteStateConsistent ((op :: ops).foldl applyVoteOp s)
      rw [List.foldl_cons]
      exact ih _ (fun o ho => hall o (List.mem_cons_of_mem _ ho))
        (applyVoteOp_consistent op (hall op (List.mem_cons_self _ _)) s hc)
  intro ops s hall hc
  have hfin := hmain ops s hall hc
  refine ⟨hfin, ?_, ?_⟩
  · intro p hp
    obtain ⟨hu, hd⟩ := hfin.1.1 p hp
    exact ⟨by rw [hu]; exact Int.natCast_nonneg _, by rw [hd]; exact Int.natCast_nonneg _⟩
  · intro c hcm
    obtain ⟨hu, hd⟩ := hfin.2.1 c hcm
    exact ⟨by rw [hu]; exact Int.natCast_nonneg _, by rw [hd]; exact Int.natCast_nonneg _⟩

/-- Witness for C3 at a concrete consistent store and op sequence. -/
theorem c3_counter_non_negativity_witness :
    voteStateConsistent (applyVoteOps sampleStore c3Ops) ∧
    (∀ p ∈ (applyVoteOps sampleStore c3Ops).posts, 0 ≤ p.upvotes ∧ 0 ≤ p.downvotes) :=
  ⟨(c3_counter_non_negativity c3Ops sampleStore (by decide) (by decide)).1,
   (c3_counter_non_negativity c3Ops sampleStore (by decide) (by decide)).2.1⟩
